import Mathlib

/-!
# Supervisor and listener manager of the monitoring agent

A shallow embedding of `agentrt/instance.go` (the supervisor `AgentInstance`) and of
`webserver/server.go` (the listener manager `Server`), followed by theorems about them.

Conventions of the embedding:

* a Go pointer field is an `Option`; `none` is the nil pointer;
* a Go map is an `Option` of an association list; `none` is the nil map, the list holds one
  entry per key; the order in which a `range` visits the entries is unspecified in Go and is
  given to the merge from outside as a `RangeOrder`, any rearrangement of the entries;
* an object created with `&T{...}` gets a fresh identity from the counter `nextId`;
* calls into collaborators are recorded, in program order, in an effect trace;
* `log.Fatalln` and a runtime panic end the computation with `Except.error`.
-/

namespace agentrt

/-! ## Go maps with string keys -/

/-- Read `m[k]` on the entries of an allocated map. -/
def mapGet {V : Type} : List (String × V) → String → Option V
  | [], _ => none
  | (k', v) :: rest, k => if k' = k then some v else mapGet rest k

/-- Write `m[k] = v` on the entries of an allocated map: the entry of `k` is replaced where it
stands, a new key is added at the end. -/
def mapSet {V : Type} : List (String × V) → String → V → List (String × V)
  | [], k, v => [(k, v)]
  | (k', v') :: rest, k, v => if k' = k then (k, v) :: rest else (k', v') :: mapSet rest k v

/-- Keys of a list of entries, in the order of the list. -/
def mapKeys {V : Type} (m : List (String × V)) : List String := m.map Prod.fst

/-- The order in which one `range` over a `map[string]string` visits the entries. Go leaves it
unspecified: `visit` may be any rearrangement of the entries. -/
structure RangeOrder where
  visit : List (String × String) → List (String × String)
  perm : ∀ m, (visit m).Perm m

/-- The range that visits the entries in the order in which the keys were first written. -/
def RangeOrder.insertion : RangeOrder :=
  { visit := fun m => m, perm := fun m => List.Perm.refl m }

/-- The range that visits the entries in the opposite order. -/
def RangeOrder.reversed : RangeOrder :=
  { visit := fun m => m.reverse, perm := fun m => List.reverse_perm m }

/-! ## Configuration (the fields read by the supervisor and by the listener) -/

/-- The `OITC` section of `config.Configuration`. -/
structure OITC where
  Push : Bool
  EnableWebserver : Bool
  deriving DecidableEq, Repr

/-- An entry of `cfg.CustomCheckConfiguration`; the type is declared outside these sources and
only the length of the list is inspected here. -/
abbrev CustomCheck := String

/-- An entry of `cfg.PrometheusExporterConfiguration`; declared outside these sources. -/
abbrev PrometheusExporter := String

/-- A check returned by `checks.ChecksForConfiguration`; declared outside these sources. -/
abbrev Check := String

/-- The fields of `config.Configuration` that `agentrt` and `webserver` read. -/
structure Configuration where
  OITC : OITC
  CustomCheckConfiguration : List CustomCheck
  PrometheusExporterConfiguration : List PrometheusExporter
  Address : String
  Port : Int
  EnablePPROF : Bool
  AutoSslEnabled : Bool
  AutoSslCrtFile : String
  AutoSslKeyFile : String
  AutoSslCaFile : String
  KeyFile : String
  CertificateFile : String
  TlsSecurityLevel : String
  deriving DecidableEq, Repr

/-! ## Supervisor state -/

/-- A value stored in a `map[string]interface{}` check result. `R` is the type of the values the
scheduler and the custom checks produce (declared outside these sources). -/
inductive Value (R : Type) where
  | string (s : String)
  | strings (keys : List String)
  | object (m : List (String × R))
  | other (r : R)
  deriving DecidableEq, Repr

/-- The kinds of collaborator the supervisor owns. -/
inductive Subsystem where
  | logHandler
  | webserver
  | checkRunner
  | customCheckHandler
  | prometheusCheckHandler
  | pushClient
  deriving DecidableEq, Repr

/-- Calls the supervisor makes into its collaborators. -/
inductive Effect where
  | start (s : Subsystem) (id : Nat)
  | shutdown (s : Subsystem) (id : Nat)
  | webserverReload (id : Nat) (cfg : Configuration)
  deriving DecidableEq, Repr

/-- Allocation counter and effect trace. -/
structure World where
  nextId : Nat
  trace : List Effect
  deriving DecidableEq, Repr

/-- Record one effect at the end of the trace. -/
def World.emit (w : World) (e : Effect) : World :=
  { w with trace := w.trace ++ [e] }

/-- Allocate a fresh object identity. -/
def World.fresh (w : World) : Nat × World :=
  (w.nextId, { w with nextId := w.nextId + 1 })

/-- A `*loghandler.LogHandler`. -/
structure LogHandler where
  id : Nat
  deriving DecidableEq, Repr

/-- A `*webserver.Server` as seen by the supervisor. -/
structure WebServer where
  id : Nat
  deriving DecidableEq, Repr

/-- A `*checkrunner.CheckRunner` with the fields set at creation. -/
structure CheckRunner where
  id : Nat
  Configuration : Configuration
  Checks : List Check
  deriving DecidableEq, Repr

/-- A `*checkrunner.CustomCheckHandler` with the field set at creation. -/
structure CustomCheckHandler where
  id : Nat
  Configuration : List CustomCheck
  deriving DecidableEq, Repr

/-- A `*checkrunner.PrometheusCheckHandler` with the field set at creation. -/
structure PrometheusCheckHandler where
  id : Nat
  Configuration : List PrometheusExporter
  deriving DecidableEq, Repr

/-- A `*pushclient.PushClient`. -/
structure PushClient where
  id : Nat
  deriving DecidableEq, Repr

/-- The fields of `AgentInstance` that the event loop reads and writes. The channels are left
out: they are created once and never compared. -/
structure AgentInstance (R : Type) where
  customCheckResults : Option (List (String × R))
  prometheusExporterResults : Option (List (String × String))
  logHandler : Option LogHandler
  webserver : Option WebServer
  checkRunner : Option CheckRunner
  customCheckHandler : Option CustomCheckHandler
  prometheusCheckHandler : Option PrometheusCheckHandler
  pushClient : Option PushClient
  deriving DecidableEq, Repr

/-- Results of the collaborator calls whose `error` the supervisor inspects. -/
structure Env where
  ChecksForConfiguration : Configuration → Except String (List Check)
  checkRunnerStart : Configuration → Option String
  pushClientStart : Configuration → Option String

/-! ## `processCheckResult` (the merge, lines 50-72) -/

/-- The merge of `processCheckResult`: returns the result map after the two writes and the
local `prometheus_results_data`. `order` is the order in which the `range` of line 65 visits
the exporter map. Serialisation and the timed fan-out that follow are not part of the
embedding. `result` is an allocated map. -/
def processCheckResult {R : Type} (order : RangeOrder) (a : AgentInstance R)
    (result : List (String × Value R)) : List (String × Value R) × List (String × String) :=
  let result :=
    match a.customCheckResults with
    | none => mapSet result "customchecks" (Value.object [])
    | some m => mapSet result "customchecks" (Value.object m)
  match a.prometheusExporterResults with
  | none => (mapSet result "prometheus_exporters" (Value.string "[]"), [])
  | some m =>
    let visited := order.visit m
    let keys := mapKeys visited
    let prometheus_results_data := visited.foldl (fun d kv => mapSet d kv.1 kv.2) []
    (mapSet result "prometheus_exporters" (Value.strings keys), prometheus_results_data)

/-! ## `doReload` and its helpers (lines 122-212) -/

/-- Lines 133-151 of `doReload`: the listener is shut down only for push without
`EnableWebserver`, created when absent and wanted, and reloaded when present. -/
def reloadWebserver {R : Type} (cfg : Configuration) (a : AgentInstance R) (w : World) :
    AgentInstance R × World :=
  let (a, w) :=
    match a.webserver with
    | some s =>
      if cfg.OITC.Push && !cfg.OITC.EnableWebserver then
        ({ a with webserver := none }, w.emit (.shutdown .webserver s.id))
      else (a, w)
    | none => (a, w)
  let (a, w) :=
    if a.webserver.isNone && (!cfg.OITC.Push || (cfg.OITC.Push && cfg.OITC.EnableWebserver)) then
      let (id, w) := w.fresh
      ({ a with webserver := some { id := id } }, w.emit (.start .webserver id))
    else (a, w)
  match a.webserver with
  | some s => (a, w.emit (.webserverReload s.id cfg))
  | none => (a, w)

/-- The body of `doCustomCheckReload`. -/
def doCustomCheckReload {R : Type} (ccc : List CustomCheck) (a : AgentInstance R) (w : World) :
    AgentInstance R × World :=
  let (a, w) :=
    match a.customCheckHandler with
    | some h => ({ a with customCheckHandler := none }, w.emit (.shutdown .customCheckHandler h.id))
    | none => (a, w)
  if ccc.length > 0 then
    let (id, w) := w.fresh
    ({ a with customCheckHandler := some { id := id, Configuration := ccc } },
      w.emit (.start .customCheckHandler id))
  else (a, w)

/-- The body of `doPrometheusExporterCheckReload`. -/
def doPrometheusExporterCheckReload {R : Type} (exporters : List PrometheusExporter)
    (a : AgentInstance R) (w : World) : AgentInstance R × World :=
  let (a, w) :=
    match a.prometheusCheckHandler with
    | some h =>
      ({ a with prometheusCheckHandler := none }, w.emit (.shutdown .prometheusCheckHandler h.id))
    | none => (a, w)
  if exporters.length > 0 then
    let (id, w) := w.fresh
    ({ a with prometheusCheckHandler := some { id := id, Configuration := exporters } },
      w.emit (.start .prometheusCheckHandler id))
  else (a, w)

/-- Lines 153-168 of `doReload`: the scheduler is shut down when present and created anew. An
`error` is the message of the `log.Fatalln` that ends the process. -/
def reloadCheckRunner {R : Type} (env : Env) (cfg : Configuration) (a : AgentInstance R)
    (w : World) : Except String (AgentInstance R × World) :=
  let w :=
    match a.checkRunner with
    | some r => w.emit (.shutdown .checkRunner r.id)
    | none => w
  match env.ChecksForConfiguration cfg with
  | .error err => .error err
  | .ok cList =>
    let (id, w) := w.fresh
    let a := { a with checkRunner := some { id := id, Configuration := cfg, Checks := cList } }
    let w := w.emit (.start .checkRunner id)
    match env.checkRunnerStart cfg with
    | some err => .error err
    | none => .ok (a, w)

/-- Lines 170-181 of `doReload`: the push client is shut down when present and created anew in
push mode. -/
def reloadPushClient {R : Type} (env : Env) (cfg : Configuration) (a : AgentInstance R)
    (w : World) : Except String (AgentInstance R × World) :=
  let (a, w) :=
    match a.pushClient with
    | some p => ({ a with pushClient := none }, w.emit (.shutdown .pushClient p.id))
    | none => (a, w)
  if cfg.OITC.Push then
    let (id, w) := w.fresh
    let a := { a with pushClient := some { id := id } }
    let w := w.emit (.start .pushClient id)
    match env.pushClientStart cfg with
    | some err => .error ("Could not load push client: " ++ err)
    | none => .ok (a, w)
  else .ok (a, w)

/-- The body of `doReload`: its five parts in source order. -/
def doReload {R : Type} (env : Env) (cfg : Configuration) (a : AgentInstance R) (w : World) :
    Except String (AgentInstance R × World) :=
  let (a, w) := reloadWebserver cfg a w
  match reloadCheckRunner env cfg a w with
  | .error err => .error err
  | .ok (a, w) =>
    match reloadPushClient env cfg a w with
    | .error err => .error err
    | .ok (a, w) =>
      let (a, w) := doCustomCheckReload cfg.CustomCheckConfiguration a w
      .ok (doPrometheusExporterCheckReload cfg.PrometheusExporterConfiguration a w)

/-! ## `stop` (lines 214-257) -/

/-- The body of `stop`. Each unit of work touches one field of its own, so the final state does
not depend on the interleaving; the trace lists the calls in source order. -/
def stop {R : Type} (a : AgentInstance R) (w : World) : AgentInstance R × World :=
  let (a, w) :=
    match a.logHandler with
    | some h => ({ a with logHandler := none }, w.emit (.shutdown .logHandler h.id))
    | none => (a, w)
  let (a, w) :=
    match a.webserver with
    | some h => ({ a with webserver := none }, w.emit (.shutdown .webserver h.id))
    | none => (a, w)
  let (a, w) :=
    match a.customCheckHandler with
    | some h => ({ a with customCheckHandler := none }, w.emit (.shutdown .customCheckHandler h.id))
    | none => (a, w)
  let (a, w) :=
    match a.checkRunner with
    | some h => ({ a with checkRunner := none }, w.emit (.shutdown .checkRunner h.id))
    | none => (a, w)
  match a.pushClient with
  | some h => ({ a with pushClient := none }, w.emit (.shutdown .pushClient h.id))
  | none => (a, w)

/-! ## `Start` and the event loop (lines 259-324) -/

/-- The assignments of `Start` (lines 260-276) and `a.logHandler.Start(ctx)`: the state in which
the event loop begins. -/
def Start {R : Type} (a : AgentInstance R) (w : World) : AgentInstance R × World :=
  let (id, w) := w.fresh
  ({ a with
      customCheckResults := some [],
      prometheusExporterResults := some [],
      logHandler := some { id := id } },
    w.emit (.start .logHandler id))

/-- An event taken by the `select` of the loop. A reload carries what `config.Load` returned, a
scheduler result the order in which the merge will range over the exporter map. -/
inductive Event (R : Type) where
  | ctxDone
  | shutdownClosed
  | reload (loaded : Except String Configuration)
  | checkResult (res : List (String × Value R)) (order : RangeOrder)
  | customCheckResult (Name : String) (Result : R)
  | prometheusExporterResult (Name : String) (Result : String)

/-- What one turn of the loop leaves behind. `exited` is set when the loop returned (and the
deferred `stop` has run); `snapshot` is the merged result of a scheduler event. -/
structure Turn (R : Type) where
  a : AgentInstance R
  w : World
  exited : Bool
  snapshot : Option (List (String × Value R))

/-- One turn of the event loop of `Start`. Writing to a nil map is a runtime panic. -/
def loopTurn {R : Type} (env : Env) (a : AgentInstance R) (w : World) :
    Event R → Except String (Turn R)
  | .ctxDone =>
    let (a, w) := stop a w
    .ok { a := a, w := w, exited := true, snapshot := none }
  | .shutdownClosed =>
    let (a, w) := stop a w
    .ok { a := a, w := w, exited := true, snapshot := none }
  | .reload (.error err) => .error ("could not load configuration: " ++ err)
  | .reload (.ok cfg) =>
    match doReload env cfg a w with
    | .error err => .error err
    | .ok (a, w) => .ok { a := a, w := w, exited := false, snapshot := none }
  | .checkResult res order =>
    .ok { a := a, w := w, exited := false, snapshot := some (processCheckResult order a res).1 }
  | .customCheckResult name r =>
    match a.customCheckResults with
    | none => .error "panic: assignment to entry in nil map"
    | some m =>
      .ok { a := { a with customCheckResults := some (mapSet m name r) }, w := w,
            exited := false, snapshot := none }
  | .prometheusExporterResult name r =>
    match a.prometheusExporterResults with
    | none => .error "panic: assignment to entry in nil map"
    | some m =>
      .ok { a := { a with prometheusExporterResults := some (mapSet m name r) }, w := w,
            exited := false, snapshot := none }

/-- Run the loop over the events it takes, one after the other; it ends with the turn on which
the loop returns, or with the last turn. -/
def runLoop {R : Type} (env : Env) : AgentInstance R → World → List (Event R) →
    Except String (Turn R)
  | a, w, [] => .ok { a := a, w := w, exited := false, snapshot := none }
  | a, w, ev :: evs =>
    match loopTurn env a w ev with
    | .error err => .error err
    | .ok t =>
      if t.exited then .ok t
      else
        match evs with
        | [] => .ok t
        | _ :: _ => runLoop env t.a t.w evs

/-- An event that carries a custom-check result or an exporter result. -/
def Event.isUpsert {R : Type} : Event R → Bool
  | .customCheckResult _ _ => true
  | .prometheusExporterResult _ _ => true
  | _ => false

/-- The calls made to listeners, in order. -/
def webEffects (es : List Effect) : List Effect :=
  es.filter fun e =>
    match e with
    | .start .webserver _ => true
    | .shutdown .webserver _ => true
    | .webserverReload _ _ => true
    | _ => false

/-- Replays the listener calls of a trace: `Start` is legal only while no listener is live,
`Shutdown` and `Reload` only on the live listener. Returns the listener live at the end, or
`none` when the trace breaks this discipline. -/
def listenerLive : List Effect → Option Nat → Option (Option Nat)
  | [], cur => some cur
  | .start .webserver id :: es, cur =>
    match cur with
    | none => listenerLive es (some id)
    | some _ => none
  | .shutdown .webserver id :: es, cur => if cur = some id then listenerLive es none else none
  | .webserverReload id _ :: es, cur => if cur = some id then listenerLive es cur else none
  | _ :: es, cur => listenerLive es cur

/-- Whether `doReload` wants a listener for this configuration (the condition of line 140). -/
def wantsWebserver (cfg : Configuration) : Bool :=
  !cfg.OITC.Push || (cfg.OITC.Push && cfg.OITC.EnableWebserver)

/-- The listener calls expected of one supervisor reload, given the listener handle before the
reload and the next free identity. -/
def webserverCalls (cfg : Configuration) (cur : Option WebServer) (n : Nat) : List Effect :=
  match cur, wantsWebserver cfg with
  | some s, true => [.webserverReload s.id cfg]
  | some s, false => [.shutdown .webserver s.id]
  | none, true => [.start .webserver n, .webserverReload n cfg]
  | none, false => []

/-- A `Shutdown` of the old object, when there is one. -/
def shutdownOf (s : Subsystem) (old : Option Nat) : List Effect :=
  match old with
  | some id => [.shutdown s id]
  | none => []

/-- A `Start` of the object `id`, when it is wanted. -/
def startOf (s : Subsystem) (wanted : Bool) (id : Nat) : List Effect :=
  if wanted then [.start s id] else []

/-- The effects recorded in `w'` after the point at which the world was `w`. -/
def World.since (w' w : World) : List Effect := w'.trace.drop w.trace.length

/-- How often `Shutdown` was called on the object `id` of kind `s`. -/
def shutdownCount (es : List Effect) (s : Subsystem) (id : Nat) : Nat :=
  es.count (Effect.shutdown s id)

/-- The zero value of `AgentInstance`: every map and every pointer is nil. -/
def AgentInstance.zero {R : Type} : AgentInstance R :=
  { customCheckResults := none, prometheusExporterResults := none, logHandler := none,
    webserver := none, checkRunner := none, customCheckHandler := none,
    prometheusCheckHandler := none, pushClient := none }

/-- The world before anything was allocated or called. -/
def World.zero : World := { nextId := 0, trace := [] }

/-- An environment in which every collaborator starts without error. -/
def Env.allOk : Env :=
  { ChecksForConfiguration := fun _ => .ok [],
    checkRunnerStart := fun _ => none,
    pushClientStart := fun _ => none }

/-- A pull-mode configuration without custom checks and without exporters. -/
def Configuration.plain : Configuration :=
  { OITC := { Push := false, EnableWebserver := false },
    CustomCheckConfiguration := [],
    PrometheusExporterConfiguration := [],
    Address := "127.0.0.1", Port := 3333, EnablePPROF := false,
    AutoSslEnabled := false, AutoSslCrtFile := "", AutoSslKeyFile := "", AutoSslCaFile := "",
    KeyFile := "", CertificateFile := "", TlsSecurityLevel := "lax" }

/-- The configuration `Configuration.plain` with one exporter. -/
def Configuration.withExporter : Configuration :=
  { Configuration.plain with PrometheusExporterConfiguration := ["node_exporter"] }

end agentrt

namespace webserver

open agentrt (Configuration)

/-! ## TLS parameters (values of `crypto/tls`) -/

/-- Protocol versions used as `MinVersion`. -/
inductive TlsVersion where
  | VersionTLS12
  | VersionTLS13
  deriving DecidableEq, Repr

/-- Curves named in `CurvePreferences`. -/
inductive CurveID where
  | X25519
  | CurveP256
  | CurveP384
  deriving DecidableEq, Repr

/-- Cipher suites named in `CipherSuites`. -/
inductive CipherSuite where
  | TLS_ECDHE_ECDSA_WITH_AES_128_GCM_SHA256
  | TLS_ECDHE_RSA_WITH_AES_128_GCM_SHA256
  | TLS_ECDHE_ECDSA_WITH_AES_256_GCM_SHA384
  | TLS_ECDHE_RSA_WITH_AES_256_GCM_SHA384
  | TLS_ECDHE_ECDSA_WITH_CHACHA20_POLY1305
  | TLS_ECDHE_RSA_WITH_CHACHA20_POLY1305
  deriving DecidableEq, Repr

/-- Values of `ClientAuth`; `NoClientCert` is the zero value. -/
inductive ClientAuthType where
  | NoClientCert
  | RequireAndVerifyClientCert
  deriving DecidableEq, Repr

/-- A parsed key pair, as returned by `tls.X509KeyPair`. -/
abbrev Certificate := String

/-- A certificate pool, as returned by `utils.CertPoolFromFiles`. -/
abbrev CertPool := String

/-- The fields of `tls.Config` that `doReload` sets; an unset list is empty. -/
structure TlsConfig where
  MinVersion : TlsVersion
  CurvePreferences : List CurveID := []
  CipherSuites : List CipherSuite := []
  ClientAuth : ClientAuthType := .NoClientCert
  ClientCAs : Option CertPool := none
  Certificates : List Certificate := []
  deriving DecidableEq, Repr

/-! ## Listener state -/

/-- A `*handler` with the configuration it was built from. -/
structure Handler where
  id : Nat
  Configuration : Configuration
  deriving DecidableEq, Repr

/-- A `*http.Server` with the fields set at creation; timeouts are in seconds. -/
structure HttpServer where
  id : Nat
  Addr : String
  Handler : Nat
  ReadTimeout : Nat
  WriteTimeout : Nat
  IdleTimeout : Nat
  MaxHeaderBytes : Nat
  TLSConfig : Option TlsConfig
  deriving DecidableEq, Repr

/-- The fields `server` and `handler` of `Server`. -/
structure Server where
  server : Option HttpServer
  handler : Option Handler
  deriving DecidableEq, Repr

/-- Calls the listener manager makes, in program order. -/
inductive Effect where
  | handlerStart (id : Nat)
  | serverClose (id : Nat)
  | handlerShutdown (id : Nat)
  | testPortOpen (address : String) (isOpen : Bool)
  | sleep
  | listenServe (id : Nat)
  | reloadDone
  deriving DecidableEq, Repr

/-- Allocation counter, number of probes made so far, and effect trace. -/
structure World where
  nextId : Nat
  probes : Nat
  trace : List Effect
  deriving DecidableEq, Repr

/-- Record one effect at the end of the trace. -/
def World.emit (w : World) (e : Effect) : World :=
  { w with trace := w.trace ++ [e] }

/-- Allocate a fresh object identity. -/
def World.fresh (w : World) : Nat × World :=
  (w.nextId, { w with nextId := w.nextId + 1 })

/-- What the operating system answers: file presence (`utils.FileNotExists`), file contents
(`os.ReadFile`, `none` on error), pool loading (`utils.CertPoolFromFiles`), key-pair parsing
(`tls.X509KeyPair`), the outcome of the n-th TCP dial to an address, and the error, other than
`http.ErrServerClosed`, with which `listenServe` of the server object `id` on an address
returns (`none` when the accept loop runs until the server is closed). -/
structure Sys where
  FileNotExists : String → Bool
  ReadFile : String → Option String
  CertPoolFromFiles : String → Option (CertPool × String)
  X509KeyPair : String → String → Option Certificate
  dial : Nat → String → Bool
  listenServe : Nat → String → Option String

/-- The function `testPortOpen`: one dial, `true` when it connects. -/
def testPortOpen (sys : Sys) (address : String) (w : World) : Bool × World :=
  let r := sys.dial w.probes address
  (r, { w with probes := w.probes + 1, trace := w.trace ++ [.testPortOpen address r] })

/-- The function `isAutosslEnabled`. -/
def isAutosslEnabled (sys : Sys) (cfg : Configuration) : Bool :=
  if cfg.AutoSslEnabled then
    if sys.FileNotExists cfg.AutoSslCrtFile then false
    else if sys.FileNotExists cfg.AutoSslKeyFile then false
    else if sys.FileNotExists cfg.AutoSslCaFile then false
    else true
  else false

/-- The `switch cfg.Configuration.TlsSecurityLevel` of `doReload` (lines 106-144). -/
def tlsConfigForLevel (level : String) : TlsConfig :=
  if level = "intermediate" then
    { MinVersion := .VersionTLS12,
      CurvePreferences := [.X25519, .CurveP256, .CurveP384],
      CipherSuites := [
        .TLS_ECDHE_ECDSA_WITH_AES_128_GCM_SHA256,
        .TLS_ECDHE_RSA_WITH_AES_128_GCM_SHA256,
        .TLS_ECDHE_ECDSA_WITH_AES_256_GCM_SHA384,
        .TLS_ECDHE_RSA_WITH_AES_256_GCM_SHA384,
        .TLS_ECDHE_ECDSA_WITH_CHACHA20_POLY1305,
        .TLS_ECDHE_RSA_WITH_CHACHA20_POLY1305] }
  else if level = "modern" then
    { MinVersion := .VersionTLS13,
      CurvePreferences := [.X25519, .CurveP256, .CurveP384] }
  else
    { MinVersion := .VersionTLS12 }

/-- Lines 102-195 of `doReload`: `ok none` for plain HTTP, `ok (some c)` for the TLS
configuration given to the new server, `error` for a `log.Fatalln`. -/
def tlsSetup (sys : Sys) (cfg : Configuration) : Except String (Option TlsConfig) :=
  if isAutosslEnabled sys cfg || (cfg.KeyFile != "" && cfg.CertificateFile != "") then
    let tlsConfig := tlsConfigForLevel cfg.TlsSecurityLevel
    let (certFilePath, keyFilePath, caFilePath, tlsConfig) :=
      if cfg.AutoSslEnabled then
        (cfg.AutoSslCrtFile, cfg.AutoSslKeyFile, cfg.AutoSslCaFile,
          { tlsConfig with ClientAuth := .RequireAndVerifyClientCert })
      else (cfg.CertificateFile, cfg.KeyFile, "", tlsConfig)
    match sys.ReadFile certFilePath with
    | none => .error "Webserver: Could not read server certificate"
    | some certPem =>
      let pem := certPem ++ "\n"
      match sys.ReadFile keyFilePath with
      | none => .error "Webserver: Could not read server key"
      | some keyPem =>
        let withCa : Except String (TlsConfig × String) :=
          if caFilePath != "" then
            match sys.CertPoolFromFiles caFilePath with
            | none => .error "Webserver: "
            | some (pool, caPem) => .ok ({ tlsConfig with ClientCAs := some pool }, pem ++ caPem)
          else .ok (tlsConfig, pem)
        match withCa with
        | .error err => .error err
        | .ok (tlsConfig, pem) =>
          match sys.X509KeyPair pem keyPem with
          | none => .error "Webserver: Could not load tls certificate"
          | some cert => .ok (some { tlsConfig with Certificates := [cert] })
  else .ok none

/-- The condition under which the TLS branch is wanted: (a) auto-provisioning is enabled and none
of its three files is reported missing, or (b) an explicit certificate file and an explicit key
file are both configured. -/
def TlsWanted (sys : Sys) (cfg : Configuration) : Prop :=
  (cfg.AutoSslEnabled = true ∧ sys.FileNotExists cfg.AutoSslCrtFile = false ∧
    sys.FileNotExists cfg.AutoSslKeyFile = false ∧ sys.FileNotExists cfg.AutoSslCaFile = false) ∨
  (cfg.CertificateFile ≠ "" ∧ cfg.KeyFile ≠ "")

/-- The method `close`: the server first, then the handler. -/
def close (s : Server) (w : World) : Server × World :=
  let (s, w) :=
    match s.server with
    | some srv => ({ s with server := none }, w.emit (.serverClose srv.id))
    | none => (s, w)
  match s.handler with
  | some h => ({ s with handler := none }, w.emit (.handlerShutdown h.id))
  | none => (s, w)

/-- The loop `for i := 0; i < n; i++ { if !testPortOpen(addr) { break }; time.Sleep(..) }`. -/
def waitClosed (sys : Sys) (address : String) : Nat → World → World
  | 0, w => w
  | n + 1, w =>
    let (r, w) := testPortOpen sys address w
    if !r then w else waitClosed sys address n (w.emit .sleep)

/-- The loop `for i := 0; i < n; i++ { if testPortOpen(addr) { break }; time.Sleep(..) }`. -/
def waitOpen (sys : Sys) (address : String) : Nat → World → World
  | 0, w => w
  | n + 1, w =>
    let (r, w) := testPortOpen sys address w
    if r then w else waitOpen sys address n (w.emit .sleep)

/-- Lines 79-236 of the listener's `doReload`: everything before the send on `reloadDone`. The
accept loop runs in its own unit of work, whose start is recorded as `listenServe`; when
`listenServe` returns an error other than `http.ErrServerClosed` that unit calls `log.Fatal`
and the process exits; the embedding ends the reload at the point where the unit is started. -/
def doReloadBody (sys : Sys) (cfg : Configuration) (s : Server) (w : World) :
    Except String (Server × World) :=
  let (hid, w) := w.fresh
  let newHandler : Handler := { id := hid, Configuration := cfg }
  let w := w.emit (.handlerStart hid)
  let serverAddr := cfg.Address ++ ":" ++ toString cfg.Port
  let timeout := if cfg.EnablePPROF then 3600 else 30
  let (sid, w) := w.fresh
  match tlsSetup sys cfg with
  | .error err => .error err
  | .ok tls =>
    let newServer : HttpServer :=
      { id := sid, Addr := serverAddr, Handler := hid, ReadTimeout := timeout,
        WriteTimeout := timeout, IdleTimeout := timeout, MaxHeaderBytes := 256 * 1024,
        TLSConfig := tls }
    let (s, w) := close s w
    let s := { s with handler := some newHandler }
    let w :=
      match s.server with
      | some old => waitClosed sys old.Addr 30 w
      | none => w
    let w := waitClosed sys newServer.Addr 30 w
    let w := w.emit (.listenServe newServer.id)
    match sys.listenServe newServer.id newServer.Addr with
    | some err => .error ("Webserver: " ++ err)
    | none =>
      let s := { s with server := some newServer }
      .ok (s, waitOpen sys newServer.Addr 30 w)

/-- The body of the listener's `doReload`: `doReloadBody`, then the send on `cfg.reloadDone`
(line 237), recorded as `reloadDone`. -/
def doReload (sys : Sys) (cfg : Configuration) (s : Server) (w : World) :
    Except String (Server × World) :=
  match doReloadBody sys cfg s w with
  | .error err => .error err
  | .ok (s, w) => .ok (s, w.emit .reloadDone)

/-- Where the unit of work that called `Reload` stands: blocked at the send
`s.reload <- &reloadConfig{...}` (line 267), blocked at the receive `<-done` (line 273), or
returned. -/
inductive Caller where
  | sending (cfg : Configuration)
  | waiting
  | returned
  deriving DecidableEq, Repr

/-- Where the event loop of `Start` stands: at its `select` (line 295), holding a request it
has received from `s.reload` (line 302), or blocked at the send `cfg.reloadDone <- struct{}{}`
that ends `doReload` (line 237). -/
inductive Loop where
  | selecting
  | reloading (cfg : Configuration)
  | signalling
  deriving DecidableEq, Repr

/-- The caller of `Reload` and the event loop, with the listener state and the world. -/
structure Handshake where
  caller : Caller
  loop : Loop
  s : Server
  w : World
  deriving DecidableEq, Repr

/-- One step of the two units of work. Both channels are unbuffered, so a send and its receive
happen together: the request passes when the caller is at its send and the loop at its
`select`; the loop then runs `doReload` up to its last statement; the completion signal passes
when the loop is at that send and the caller at `<-done`. `ok none` means nothing can move. -/
def Handshake.step (sys : Sys) (h : Handshake) : Except String (Option Handshake) :=
  match h.caller, h.loop with
  | .sending cfg, .selecting => .ok (some { h with caller := .waiting, loop := .reloading cfg })
  | _, .reloading cfg =>
    match doReloadBody sys cfg h.s h.w with
    | .error err => .error err
    | .ok (s, w) => .ok (some { h with loop := .signalling, s := s, w := w })
  | .waiting, .signalling =>
    .ok (some { h with caller := .returned, loop := .selecting, w := h.w.emit .reloadDone })
  | _, _ => .ok none

/-- At most `n` steps of the two units of work. -/
def Handshake.run (sys : Sys) : Nat → Handshake → Except String Handshake
  | 0, h => .ok h
  | n + 1, h =>
    match h.step sys with
    | .error err => .error err
    | .ok none => .ok h
    | .ok (some h') => Handshake.run sys n h'

/-- A call of `Reload` (lines 263-274) against an event loop that is at its `select`: the
caller starts at its send, and the two units of work take at most `n` steps. -/
def Reload (sys : Sys) (cfg : Configuration) (s : Server) (w : World) (n : Nat) :
    Except String Handshake :=
  Handshake.run sys n { caller := .sending cfg, loop := .selecting, s := s, w := w }

/-- The `*http.Server` that `doReload` builds when its handler has identity `hid`: the handler
is allocated first, the server next. -/
def newServerOf (cfg : Configuration) (tls : Option TlsConfig) (hid : Nat) : HttpServer :=
  { id := hid + 1, Addr := cfg.Address ++ ":" ++ toString cfg.Port, Handler := hid,
    ReadTimeout := if cfg.EnablePPROF then 3600 else 30,
    WriteTimeout := if cfg.EnablePPROF then 3600 else 30,
    IdleTimeout := if cfg.EnablePPROF then 3600 else 30,
    MaxHeaderBytes := 256 * 1024, TLSConfig := tls }

/-- A run of reloads handled one after the other by the listener's event loop. -/
def doReloads (sys : Sys) : Server → World → List Configuration → Except String (Server × World)
  | s, w, [] => .ok (s, w)
  | s, w, cfg :: cfgs =>
    match doReload sys cfg s w with
    | .error err => .error err
    | .ok (s, w) => doReloads sys s w cfgs

/-- Replays the server calls of a trace: `listenServe` is legal only while no server started
earlier is still unclosed, `serverClose` only on the server that is running. Returns the
running server at the end, or `none` when the trace breaks this discipline. -/
def serving : List Effect → Option Nat → Option (Option Nat)
  | [], cur => some cur
  | .listenServe id :: es, cur =>
    match cur with
    | none => serving es (some id)
    | some _ => none
  | .serverClose id :: es, cur => if cur = some id then serving es none else none
  | _ :: es, cur => serving es cur

/-- The effects of `close` on a given state. -/
def closeEffects (s : Server) : List Effect :=
  (match s.server with
    | some srv => [Effect.serverClose srv.id]
    | none => []) ++
  (match s.handler with
    | some h => [Effect.handlerShutdown h.id]
    | none => [])

/-- An effect that is a probe or a pause. -/
def Effect.isProbe : Effect → Bool
  | .testPortOpen _ _ => true
  | .sleep => true
  | _ => false

/-- An effect that closes a server or starts an accept loop. -/
def Effect.isServerCall : Effect → Bool
  | .listenServe _ => true
  | .serverClose _ => true
  | _ => false

/-- The listener state before the first reload. -/
def Server.zero : Server := { server := none, handler := none }

/-- The world before anything was allocated, probed or called. -/
def World.zero : World := { nextId := 0, probes := 0, trace := [] }

/-- A system holding exactly the given files, in which every pool and key pair parses, no
port answers and every accept loop runs. -/
def Sys.ofFiles (files : List (String × String)) : Sys :=
  { FileNotExists := fun p => (files.lookup p).isNone,
    ReadFile := fun p => files.lookup p,
    CertPoolFromFiles := fun p => (files.lookup p).map fun c => ("pool of " ++ c, c),
    X509KeyPair := fun pem key => some (pem ++ key),
    dial := fun _ _ => false,
    listenServe := fun _ _ => none }

/-- A system with an explicit certificate and key and no provisioned file. -/
def Sys.explicitOnly : Sys :=
  Sys.ofFiles [("/etc/agent/cert.pem", "CERT"), ("/etc/agent/key.pem", "KEY")]

/-- A system that also holds a provisioned certificate and key, but no CA file. -/
def Sys.withoutCa : Sys :=
  Sys.ofFiles [("/etc/agent/cert.pem", "CERT"), ("/etc/agent/key.pem", "KEY"),
    ("/autossl/server.crt", "AUTOCERT"), ("/autossl/server.key", "AUTOKEY")]

/-- A configuration with an explicit certificate file and key file. -/
def explicitTls : Configuration :=
  { agentrt.Configuration.plain with
    CertificateFile := "/etc/agent/cert.pem", KeyFile := "/etc/agent/key.pem" }

/-- The configuration `explicitTls` with auto-provisioning switched on. -/
def halfProvisioned : Configuration :=
  { explicitTls with
    AutoSslEnabled := true, AutoSslCrtFile := "/autossl/server.crt",
    AutoSslKeyFile := "/autossl/server.key", AutoSslCaFile := "/autossl/ca.crt" }

/-- The configuration `halfProvisioned` with an empty CA path. -/
def autosslWithoutCa : Configuration :=
  { halfProvisioned with AutoSslCaFile := "" }

/-- The value of `serverAddr` in `doReload`: `fmt.Sprintf("%s:%d", Address, Port)`. -/
def serverAddr (cfg : Configuration) : String :=
  cfg.Address ++ ":" ++ toString cfg.Port

/-- The effects of `k` rounds of a probe loop that did not leave the loop: a dial of `address`
with outcome `r`, then a pause of one second. -/
def probeRounds (address : String) (r : Bool) : Nat → List Effect
  | 0 => []
  | k + 1 => .testPortOpen address r :: .sleep :: probeRounds address r k

/-- How many dials a list of effects holds. -/
def probeCount (es : List Effect) : Nat :=
  es.countP fun e =>
    match e with
    | .testPortOpen _ _ => true
    | _ => false

/-- The addresses dialled in a list of effects, in order. -/
def probedAddresses : List Effect → List String
  | [] => []
  | .testPortOpen address _ :: es => address :: probedAddresses es
  | _ :: es => probedAddresses es

/-- A system in which the address `127.0.0.1:3333` answers every dial and no other does. -/
def Sys.oldPortBusy : Sys :=
  { Sys.ofFiles [] with dial := fun _ address => address == "127.0.0.1:3333" }

/-- A system in which no port answers and the listener may not bind its address. -/
def Sys.bindDenied : Sys :=
  { Sys.ofFiles [] with
    listenServe := fun _ _ => some "listen tcp 127.0.0.1:3333: bind: permission denied" }

/-- The configuration `Configuration.plain` moved to port 4444. -/
def movedPort : Configuration :=
  { agentrt.Configuration.plain with Port := 4444 }

end webserver

/-! # Theorems -/

namespace agentrt

/-! ## Go maps -/

theorem mapGet_mapSet_self {V : Type} (m : List (String × V)) (k : String) (v : V) :
    mapGet (mapSet m k v) k = some v := by
  induction m with
  | nil => simp [mapSet, mapGet]
  | cons kv rest ih =>
    obtain ⟨k', v'⟩ := kv
    by_cases h : k' = k
    · simp [mapSet, mapGet, h]
    · simp [mapSet, mapGet, h, ih]

theorem mapGet_mapSet_of_ne {V : Type} (m : List (String × V)) {k k' : String} (h : k' ≠ k)
    (v : V) : mapGet (mapSet m k v) k' = mapGet m k' := by
  induction m with
  | nil => simp [mapSet, mapGet, Ne.symm h]
  | cons kv rest ih =>
    obtain ⟨k₀, v₀⟩ := kv
    by_cases h₀ : k₀ = k
    · subst h₀
      simp [mapSet, mapGet, Ne.symm h]
    · by_cases h₁ : k₀ = k'
      · subst h₁
        simp [mapSet, mapGet, h₀]
      · simp [mapSet, mapGet, h₀, h₁, ih]

theorem mapKeys_mapSet_of_mem {V : Type} (m : List (String × V)) (k : String) (v : V)
    (h : k ∈ mapKeys m) : mapKeys (mapSet m k v) = mapKeys m := by
  induction m with
  | nil => simp [mapKeys] at h
  | cons kv rest ih =>
    obtain ⟨k₀, v₀⟩ := kv
    by_cases h₀ : k₀ = k
    · simp [mapSet, mapKeys, h₀]
    · have hrest : k ∈ mapKeys rest := by
        simp only [mapKeys, List.map_cons, List.mem_cons] at h
        rcases h with h | h
        · exact absurd h.symm h₀
        · exact h
      have := ih hrest
      simp only [mapKeys] at this
      simp [mapSet, mapKeys, h₀, this]

theorem mapKeys_mapSet_of_not_mem {V : Type} (m : List (String × V)) (k : String) (v : V)
    (h : k ∉ mapKeys m) : mapKeys (mapSet m k v) = mapKeys m ++ [k] := by
  induction m with
  | nil => simp [mapSet, mapKeys]
  | cons kv rest ih =>
    obtain ⟨k₀, v₀⟩ := kv
    simp only [mapKeys, List.map_cons, List.mem_cons, not_or] at h
    have h₀ : ¬ k₀ = k := fun e => h.1 e.symm
    have := ih h.2
    simp only [mapKeys] at this
    simp [mapSet, mapKeys, h₀, this]

theorem mem_mapKeys_mapSet {V : Type} (m : List (String × V)) (k k' : String) (v : V) :
    k' ∈ mapKeys (mapSet m k v) ↔ k' = k ∨ k' ∈ mapKeys m := by
  by_cases h : k ∈ mapKeys m
  · rw [mapKeys_mapSet_of_mem m k v h]
    constructor
    · exact Or.inr
    · rintro (rfl | h')
      · exact h
      · exact h'
  · rw [mapKeys_mapSet_of_not_mem m k v h]
    simp [or_comm]

/-! ## The merge -/

/-- C1: whatever the supervisor state (either mapping nil or allocated, any contents), whatever
the incoming scheduler result (also one that already has these keys) and whatever the order in
which the exporter map is ranged over, the result map
after the merge of `processCheckResult` has the key "customchecks" and the key
"prometheus_exporters". -/
theorem processCheckResult_has_both_keys {R : Type} (order : RangeOrder) (a : AgentInstance R)
    (result : List (String × Value R)) :
    "customchecks" ∈ mapKeys (processCheckResult order a result).1 ∧
    "prometheus_exporters" ∈ mapKeys (processCheckResult order a result).1 ∧
    (mapGet (processCheckResult order a result).1 "customchecks").isSome = true ∧
    (mapGet (processCheckResult order a result).1 "prometheus_exporters").isSome = true := by
  have hne : "customchecks" ≠ "prometheus_exporters" := by decide
  unfold processCheckResult
  cases a.customCheckResults <;> cases a.prometheusExporterResults <;>
    simp [mem_mapKeys_mapSet, mapGet_mapSet_self, mapGet_mapSet_of_ne _ hne]


/-! ## The parts of `doReload` in closed form -/

theorem reloadWebserver_eq {R : Type} (cfg : Configuration) (a : AgentInstance R) (w : World) :
    reloadWebserver cfg a w =
      ({ a with webserver :=
          if wantsWebserver cfg then
            (match a.webserver with
              | some s => some s
              | none => some { id := w.nextId })
          else none },
       { nextId := if wantsWebserver cfg && a.webserver.isNone then w.nextId + 1 else w.nextId,
         trace := w.trace ++ webserverCalls cfg a.webserver w.nextId }) := by
  obtain ⟨cc, pe, lh, ws, cr, cch, pch, pc⟩ := a
  obtain ⟨n, tr⟩ := w
  unfold reloadWebserver
  cases ws <;> cases hp : cfg.OITC.Push <;> cases he : cfg.OITC.EnableWebserver <;>
    simp [World.emit, World.fresh, wantsWebserver, webserverCalls, hp, he]

theorem reloadCheckRunner_eq {R : Type} (env : Env) (cfg : Configuration) (a : AgentInstance R)
    (w : World) {cl : List Check} (h₁ : env.ChecksForConfiguration cfg = .ok cl)
    (h₂ : env.checkRunnerStart cfg = none) :
    reloadCheckRunner env cfg a w =
      .ok ({ a with checkRunner := some { id := w.nextId, Configuration := cfg, Checks := cl } },
           { nextId := w.nextId + 1,
             trace := w.trace ++ (shutdownOf .checkRunner (a.checkRunner.map (·.id)) ++
               [.start .checkRunner w.nextId]) }) := by
  obtain ⟨cc, pe, lh, ws, cr, cch, pch, pc⟩ := a
  obtain ⟨n, tr⟩ := w
  unfold reloadCheckRunner
  cases cr <;> simp [World.emit, World.fresh, shutdownOf, h₁, h₂]

theorem reloadCheckRunner_inv {R : Type} (env : Env) (cfg : Configuration) (a : AgentInstance R)
    (w : World) {x : AgentInstance R × World} (h : reloadCheckRunner env cfg a w = .ok x) :
    (∃ cl, env.ChecksForConfiguration cfg = .ok cl) ∧ env.checkRunnerStart cfg = none := by
  unfold reloadCheckRunner at h
  cases h₁ : env.ChecksForConfiguration cfg with
  | error e => simp [h₁] at h
  | ok cl =>
    cases h₂ : env.checkRunnerStart cfg with
    | none => exact ⟨⟨cl, rfl⟩, rfl⟩
    | some e => simp [h₁, h₂, World.fresh] at h

theorem reloadPushClient_eq {R : Type} (env : Env) (cfg : Configuration) (a : AgentInstance R)
    (w : World) (h₃ : cfg.OITC.Push = true → env.pushClientStart cfg = none) :
    reloadPushClient env cfg a w =
      .ok ({ a with pushClient := if cfg.OITC.Push then some { id := w.nextId } else none },
           { nextId := if cfg.OITC.Push then w.nextId + 1 else w.nextId,
             trace := w.trace ++ (shutdownOf .pushClient (a.pushClient.map (·.id)) ++
               startOf .pushClient cfg.OITC.Push w.nextId) }) := by
  obtain ⟨cc, pe, lh, ws, cr, cch, pch, pc⟩ := a
  obtain ⟨n, tr⟩ := w
  unfold reloadPushClient
  cases hp : cfg.OITC.Push
  · cases pc <;> simp [World.emit, shutdownOf, startOf]
  · have := h₃ hp
    cases pc <;> simp [World.emit, World.fresh, shutdownOf, startOf, this]

theorem reloadPushClient_inv {R : Type} (env : Env) (cfg : Configuration) (a : AgentInstance R)
    (w : World) {x : AgentInstance R × World} (h : reloadPushClient env cfg a w = .ok x) :
    cfg.OITC.Push = true → env.pushClientStart cfg = none := by
  intro hp
  unfold reloadPushClient at h
  cases h₃ : env.pushClientStart cfg with
  | none => rfl
  | some e => simp [hp, h₃, World.fresh] at h

theorem doCustomCheckReload_eq {R : Type} (ccc : List CustomCheck) (a : AgentInstance R)
    (w : World) :
    doCustomCheckReload ccc a w =
      ({ a with customCheckHandler :=
          if 0 < ccc.length then some { id := w.nextId, Configuration := ccc } else none },
       { nextId := if 0 < ccc.length then w.nextId + 1 else w.nextId,
         trace := w.trace ++ (shutdownOf .customCheckHandler (a.customCheckHandler.map (·.id)) ++
           startOf .customCheckHandler (decide (0 < ccc.length)) w.nextId) }) := by
  obtain ⟨cc, pe, lh, ws, cr, cch, pch, pc⟩ := a
  obtain ⟨n, tr⟩ := w
  unfold doCustomCheckReload
  by_cases hl : 0 < ccc.length <;>
    cases cch <;> simp [World.emit, World.fresh, shutdownOf, startOf, hl]

theorem doPrometheusExporterCheckReload_eq {R : Type} (exporters : List PrometheusExporter)
    (a : AgentInstance R) (w : World) :
    doPrometheusExporterCheckReload exporters a w =
      ({ a with prometheusCheckHandler :=
          if 0 < exporters.length then some { id := w.nextId, Configuration := exporters }
          else none },
       { nextId := if 0 < exporters.length then w.nextId + 1 else w.nextId,
         trace := w.trace ++
           (shutdownOf .prometheusCheckHandler (a.prometheusCheckHandler.map (·.id)) ++
            startOf .prometheusCheckHandler (decide (0 < exporters.length)) w.nextId) }) := by
  obtain ⟨cc, pe, lh, ws, cr, cch, pch, pc⟩ := a
  obtain ⟨n, tr⟩ := w
  unfold doPrometheusExporterCheckReload
  by_cases hl : 0 < exporters.length <;>
    cases pch <;> simp [World.emit, World.fresh, shutdownOf, startOf, hl]


theorem webEffects_append (xs ys : List Effect) :
    webEffects (xs ++ ys) = webEffects xs ++ webEffects ys := by
  simp [webEffects]

theorem webEffects_webserverCalls (cfg : Configuration) (cur : Option WebServer) (n : Nat) :
    webEffects (webserverCalls cfg cur n) = webserverCalls cfg cur n := by
  cases cur <;> cases h : wantsWebserver cfg <;> simp [webserverCalls, webEffects, h]

theorem webEffects_shutdownOf (s : Subsystem) (old : Option Nat) :
    webEffects (shutdownOf s old) = if s = .webserver then shutdownOf s old else [] := by
  cases old <;> cases s <;> simp [shutdownOf, webEffects]

theorem webEffects_startOf (s : Subsystem) (b : Bool) (n : Nat) :
    webEffects (startOf s b n) = if s = .webserver then startOf s b n else [] := by
  cases b <;> cases s <;> simp [startOf, webEffects]

theorem webEffects_start_checkRunner (n : Nat) (es : List Effect) :
    webEffects (Effect.start .checkRunner n :: es) = webEffects es := by
  simp [webEffects]

theorem doReload_spec {R : Type} (env : Env) (cfg : Configuration) (a : AgentInstance R)
    (w : World) {cl : List Check} (h₁ : env.ChecksForConfiguration cfg = .ok cl)
    (h₂ : env.checkRunnerStart cfg = none)
    (h₃ : cfg.OITC.Push = true → env.pushClientStart cfg = none) :
    ∃ a' w' id, doReload env cfg a w = .ok (a', w') ∧
      a'.customCheckResults = a.customCheckResults ∧
      a'.prometheusExporterResults = a.prometheusExporterResults ∧
      a'.logHandler = a.logHandler ∧
      a'.webserver = (reloadWebserver cfg a w).1.webserver ∧
      a'.checkRunner = some { id := id, Configuration := cfg, Checks := cl } ∧
      a'.pushClient.isSome = cfg.OITC.Push ∧
      a'.customCheckHandler.isSome = decide (0 < cfg.CustomCheckConfiguration.length) ∧
      a'.prometheusCheckHandler.isSome =
        decide (0 < cfg.PrometheusExporterConfiguration.length) ∧
      w'.trace = w.trace ++ w'.since w ∧
      webEffects (w'.since w) = webserverCalls cfg a.webserver w.nextId ∧
      Effect.start .checkRunner id ∈ w'.since w ∧
      shutdownOf .checkRunner (a.checkRunner.map (·.id)) ⊆ w'.since w ∧
      w.nextId ≤ id ∧ id < w'.nextId := by
  simp only [doReload, reloadWebserver_eq, reloadCheckRunner_eq _ _ _ _ h₁ h₂,
    reloadPushClient_eq _ _ _ _ h₃, doCustomCheckReload_eq, doPrometheusExporterCheckReload_eq]
  refine ⟨_, _, _, rfl, rfl, rfl, rfl, rfl, rfl, ?_, ?_, ?_, ?_, ?_, ?_, ?_, ?_, ?_⟩
  · cases cfg.OITC.Push <;> simp
  · by_cases h : 0 < cfg.CustomCheckConfiguration.length <;> simp [h]
  · by_cases h : 0 < cfg.PrometheusExporterConfiguration.length <;> simp [h]
  · simp [World.since]
  · simp [World.since, webEffects_append, webEffects_webserverCalls, webEffects_shutdownOf,
      webEffects_startOf, webEffects_start_checkRunner]
  · simp [World.since]
  · simp [World.since]
  · split_ifs <;> omega
  · dsimp only
    split_ifs <;> omega


theorem doReload_inv {R : Type} (env : Env) (cfg : Configuration) (a : AgentInstance R)
    (w : World) {x : AgentInstance R × World} (h : doReload env cfg a w = .ok x) :
    (∃ cl, env.ChecksForConfiguration cfg = .ok cl) ∧ env.checkRunnerStart cfg = none ∧
    (cfg.OITC.Push = true → env.pushClientStart cfg = none) := by
  simp only [doReload] at h
  cases hr : reloadCheckRunner env cfg (reloadWebserver cfg a w).1 (reloadWebserver cfg a w).2 with
  | error e => simp [hr] at h
  | ok y =>
    obtain ⟨hc, hs⟩ := reloadCheckRunner_inv env cfg _ _ hr
    refine ⟨hc, hs, ?_⟩
    cases hp : reloadPushClient env cfg y.1 y.2 with
    | error e => simp [hr, hp] at h
    | ok z => exact reloadPushClient_inv env cfg _ _ hp

/-- What a reload that returns leaves behind. -/
theorem doReload_ok_spec {R : Type} (env : Env) (cfg : Configuration) (a a' : AgentInstance R)
    (w w' : World) (h : doReload env cfg a w = .ok (a', w')) :
    a'.customCheckResults = a.customCheckResults ∧
    a'.prometheusExporterResults = a.prometheusExporterResults ∧
    a'.logHandler = a.logHandler ∧
    a'.webserver = (reloadWebserver cfg a w).1.webserver ∧
    w'.trace = w.trace ++ w'.since w ∧
    webEffects (w'.since w) = webserverCalls cfg a.webserver w.nextId := by
  obtain ⟨⟨cl, h₁⟩, h₂, h₃⟩ := doReload_inv env cfg a w h
  obtain ⟨a₂, w₂, id, hok, hcc, hpe, hlh, hws, -, -, -, -, htr, hweb, -⟩ :=
    doReload_spec env cfg a w h₁ h₂ h₃
  rw [h] at hok
  cases hok
  exact ⟨hcc, hpe, hlh, hws, htr, hweb⟩

/-! ## The event loop -/

theorem runLoop_cons_cons {R : Type} (env : Env) (a : AgentInstance R) (w : World)
    (ev ev' : Event R) (evs : List (Event R)) :
    runLoop env a w (ev :: ev' :: evs) =
      match loopTurn env a w ev with
      | .error err => .error err
      | .ok t => if t.exited then .ok t else runLoop env t.a t.w (ev' :: evs) := by
  rw [runLoop]

theorem runLoop_singleton {R : Type} (env : Env) (a : AgentInstance R) (w : World)
    (ev : Event R) (t : Turn R) (h : runLoop env a w [ev] = .ok t) :
    loopTurn env a w ev = .ok t := by
  rw [runLoop] at h
  cases hl : loopTurn env a w ev with
  | error e => simp [hl] at h
  | ok t' =>
    simp only [hl] at h
    split at h <;> exact h

/-- A property of state and world kept by every turn holds at the end of every run. -/
theorem runLoop_invariant {R : Type} (env : Env) (P : AgentInstance R → World → Prop)
    (hstep : ∀ a w ev t, P a w → loopTurn env a w ev = .ok t → P t.a t.w) :
    ∀ (evs : List (Event R)) (a : AgentInstance R) (w : World) (t : Turn R),
      P a w → runLoop env a w evs = .ok t → P t.a t.w := by
  intro evs
  induction evs with
  | nil =>
    intro a w t hP h
    simp only [runLoop] at h
    cases h
    exact hP
  | cons ev evs ih =>
    intro a w t hP h
    cases evs with
    | nil => exact hstep a w ev t hP (runLoop_singleton env a w ev t h)
    | cons ev' evs =>
      rw [runLoop_cons_cons] at h
      cases hl : loopTurn env a w ev with
      | error e => simp [hl] at h
      | ok t' =>
        simp only [hl] at h
        by_cases hx : t'.exited = true
        · simp only [hx, if_true] at h
          cases h
          exact hstep a w ev _ hP hl
        · simp only [hx] at h
          exact ih t'.a t'.w t (hstep a w ev t' hP hl) h

theorem loopTurn_reload_ok {R : Type} (env : Env) (a : AgentInstance R) (w : World)
    (cfg : Configuration) (t : Turn R) (h : loopTurn env a w (.reload (.ok cfg)) = .ok t) :
    doReload env cfg a w = .ok (t.a, t.w) ∧ t.exited = false ∧ t.snapshot = none := by
  simp only [loopTurn] at h
  cases hd : doReload env cfg a w with
  | error e => simp [hd] at h
  | ok x =>
    obtain ⟨a', w'⟩ := x
    simp only [hd] at h
    cases h
    exact ⟨rfl, rfl, rfl⟩


/-! ## Listener calls in a trace -/

theorem mem_webEffects_shutdown (es : List Effect) (id : Nat) :
    Effect.shutdown .webserver id ∈ webEffects es ↔ Effect.shutdown .webserver id ∈ es := by
  simp [webEffects, List.mem_filter]

theorem mem_webEffects_start (es : List Effect) (id : Nat) :
    Effect.start .webserver id ∈ webEffects es ↔ Effect.start .webserver id ∈ es := by
  simp [webEffects, List.mem_filter]

theorem mem_webEffects_reload (es : List Effect) (id : Nat) (c : Configuration) :
    Effect.webserverReload id c ∈ webEffects es ↔ Effect.webserverReload id c ∈ es := by
  simp [webEffects, List.mem_filter]

theorem count_webEffects_reload (es : List Effect) (id : Nat) (c : Configuration) :
    (webEffects es).count (Effect.webserverReload id c) = es.count (Effect.webserverReload id c) := by
  unfold webEffects
  exact List.count_filter rfl

theorem listenerLive_append (xs ys : List Effect) :
    ∀ cur, listenerLive (xs ++ ys) cur = (listenerLive xs cur).bind (listenerLive ys) := by
  induction xs with
  | nil => intro cur; rfl
  | cons e xs ih =>
    intro cur
    cases e with
    | start s id =>
      cases s <;> cases cur <;> simp [listenerLive, ih]
    | shutdown s id =>
      cases s
      case webserver =>
        simp only [List.cons_append, listenerLive]
        split_ifs
        · exact ih _
        · rfl
      all_goals exact ih cur
    | webserverReload id c =>
      simp only [List.cons_append, listenerLive]
      split_ifs
      · exact ih _
      · rfl

theorem listenerLive_webEffects (es : List Effect) :
    ∀ cur, listenerLive (webEffects es) cur = listenerLive es cur := by
  induction es with
  | nil => intro cur; rfl
  | cons e es ih =>
    intro cur
    have ih' : ∀ cur, listenerLive (List.filter (fun e =>
        match e with
        | .start .webserver _ => true
        | .shutdown .webserver _ => true
        | .webserverReload _ _ => true
        | _ => false) es) cur = listenerLive es cur := ih
    cases e with
    | start s id =>
      cases s <;> cases cur <;> simp [webEffects, listenerLive, ih']
    | shutdown s id =>
      cases s <;> simp [webEffects, listenerLive, ih']
    | webserverReload id c =>
      simp [webEffects, listenerLive, ih']

theorem listenerLive_webserverCalls (cfg : Configuration) (cur : Option WebServer) (n : Nat) :
    listenerLive (webserverCalls cfg cur n) (cur.map (·.id)) =
      some (if wantsWebserver cfg then
              (match cur with
                | some s => some s.id
                | none => some n)
            else none) := by
  cases cur <;> cases h : wantsWebserver cfg <;> simp [webserverCalls, listenerLive, h]

theorem listenerLive_extend (w w' : World) (c₀ cur cur' : Option Nat)
    (htr : w'.trace = w.trace ++ w'.since w)
    (hseg : listenerLive (webEffects (w'.since w)) cur = some cur')
    (h : listenerLive w.trace c₀ = some cur) :
    listenerLive w'.trace c₀ = some cur' := by
  rw [htr, listenerLive_append, h, Option.some_bind, ← listenerLive_webEffects]
  exact hseg

/-! ## `stop` in closed form -/

theorem stop_eq {R : Type} (a : AgentInstance R) (w : World) :
    stop a w =
      ({ a with logHandler := none, webserver := none, customCheckHandler := none,
                checkRunner := none, pushClient := none },
       { w with trace := w.trace ++
          (shutdownOf .logHandler (a.logHandler.map (·.id)) ++
           (shutdownOf .webserver (a.webserver.map (·.id)) ++
            (shutdownOf .customCheckHandler (a.customCheckHandler.map (·.id)) ++
             (shutdownOf .checkRunner (a.checkRunner.map (·.id)) ++
               shutdownOf .pushClient (a.pushClient.map (·.id)))))) }) := by
  obtain ⟨cc, pe, lh, ws, cr, cch, pch, pc⟩ := a
  obtain ⟨n, tr⟩ := w
  unfold stop
  cases lh <;> cases ws <;> cases cch <;> cases cr <;> cases pc <;>
    simp [World.emit, shutdownOf]

theorem stop_listenerLive {R : Type} (a : AgentInstance R) (w : World) (c₀ : Option Nat)
    (h : listenerLive w.trace c₀ = some (a.webserver.map (·.id))) :
    listenerLive (stop a w).2.trace c₀ = some ((stop a w).1.webserver.map (·.id)) := by
  rw [stop_eq]
  show listenerLive (w.trace ++ _) c₀ = _
  rw [listenerLive_append, h, Option.some_bind, ← listenerLive_webEffects]
  simp only [webEffects_append, webEffects_shutdownOf]
  cases a.webserver <;> simp [shutdownOf, listenerLive]

/-- The start and teardown discipline of the listener is kept by every turn of the loop. -/
theorem loopTurn_listenerLive {R : Type} (env : Env) (c₀ : Option Nat) (a : AgentInstance R)
    (w : World) (ev : Event R) (t : Turn R)
    (hP : listenerLive w.trace c₀ = some (a.webserver.map (·.id)))
    (h : loopTurn env a w ev = .ok t) :
    listenerLive t.w.trace c₀ = some (t.a.webserver.map (·.id)) := by
  cases ev with
  | ctxDone =>
    simp only [loopTurn] at h
    cases h
    exact stop_listenerLive a w c₀ hP
  | shutdownClosed =>
    simp only [loopTurn] at h
    cases h
    exact stop_listenerLive a w c₀ hP
  | reload loaded =>
    cases loaded with
    | error e => simp [loopTurn] at h
    | ok cfg =>
      obtain ⟨hd, -, -⟩ := loopTurn_reload_ok env a w cfg t h
      obtain ⟨-, -, -, hws, htr, hweb⟩ := doReload_ok_spec env cfg a t.a w t.w hd
      refine listenerLive_extend w t.w c₀ _ _ htr ?_ hP
      rw [hweb, listenerLive_webserverCalls, hws, reloadWebserver_eq]
      cases a.webserver <;> cases wantsWebserver cfg <;> simp
  | checkResult res order =>
    simp only [loopTurn] at h
    cases h
    exact hP
  | customCheckResult n r =>
    simp only [loopTurn] at h
    cases hm : a.customCheckResults with
    | none => simp [hm] at h
    | some m =>
      simp only [hm] at h
      cases h
      exact hP
  | prometheusExporterResult n r =>
    simp only [loopTurn] at h
    cases hm : a.prometheusExporterResults with
    | none => simp [hm] at h
    | some m =>
      simp only [hm] at h
      cases h
      exact hP


/-- C5: after a reload that returns, the listener handle is live exactly when push mode is off
or push mode is on together with `EnableWebserver`; the calls made to listeners during the
reload are those of `webserverCalls`: `Shutdown` happens only to the prior listener and only
for push without `EnableWebserver`; a prior listener that stays live is the same instance and
is neither shut down nor started; a live listener gets exactly one `Reload` and it carries the
new configuration; and along every run of the loop `Start` is only ever called while no
listener is live and `Shutdown` only on the live one (`listenerLive` replays the trace). -/
theorem doReload_listener {R : Type} (env : Env) (cfg : Configuration) (a a' : AgentInstance R)
    (w w' : World) (h : doReload env cfg a w = .ok (a', w')) :
    (a'.webserver.isSome = true ↔
      (cfg.OITC.Push = false ∨ (cfg.OITC.Push = true ∧ cfg.OITC.EnableWebserver = true))) ∧
    webEffects (w'.since w) = webserverCalls cfg a.webserver w.nextId ∧
    (∀ id, Effect.shutdown .webserver id ∈ w'.since w ↔
      (a.webserver = some { id := id } ∧ cfg.OITC.Push = true ∧
        cfg.OITC.EnableWebserver = false)) ∧
    (∀ s, a.webserver = some s → a'.webserver.isSome = true →
      a'.webserver = some s ∧
      ∀ id, Effect.shutdown .webserver id ∉ w'.since w ∧
        Effect.start .webserver id ∉ w'.since w) ∧
    (∀ s, a'.webserver = some s →
      (w'.since w).count (Effect.webserverReload s.id cfg) = 1 ∧
      ∀ id c, Effect.webserverReload id c ∈ w'.since w → id = s.id ∧ c = cfg) ∧
    (a'.webserver = none → ∀ id c, Effect.webserverReload id c ∉ w'.since w) ∧
    (∀ c₀, listenerLive w.trace c₀ = some (a.webserver.map (·.id)) →
      listenerLive w'.trace c₀ = some (a'.webserver.map (·.id))) ∧
    (∀ (evs : List (Event R)) (t : Turn R),
      listenerLive w.trace none = some (a.webserver.map (·.id)) →
      runLoop env a w evs = .ok t →
      listenerLive t.w.trace none = some (t.a.webserver.map (·.id))) := by
  obtain ⟨-, -, -, hws, htr, hweb⟩ := doReload_ok_spec env cfg a a' w w' h
  rw [reloadWebserver_eq] at hws
  simp only at hws
  refine ⟨?_, hweb, ?_, ?_, ?_, ?_, ?_, ?_⟩
  · rw [hws]
    cases a.webserver <;> cases hp : cfg.OITC.Push <;> cases he : cfg.OITC.EnableWebserver <;>
      simp [wantsWebserver, hp, he]
  · intro id
    rw [← mem_webEffects_shutdown, hweb]
    rcases hw : a.webserver with _ | ⟨⟨i⟩⟩ <;> cases hp : cfg.OITC.Push <;>
      cases he : cfg.OITC.EnableWebserver <;>
      simp [webserverCalls, wantsWebserver, hp, he, eq_comm]
  · intro s hs hlive
    rw [hws, hs] at hlive ⊢
    have hwant : wantsWebserver cfg = true := by
      cases hwc : wantsWebserver cfg
      · simp [hwc] at hlive
      · rfl
    refine ⟨by simp [hwant], ?_⟩
    intro id
    rw [← mem_webEffects_shutdown, ← mem_webEffects_start, hweb, hs]
    simp [webserverCalls, hwant]
  · intro s hs
    rw [hws] at hs
    have key : ∀ id c, Effect.webserverReload id c ∈ w'.since w ↔
        Effect.webserverReload id c ∈ webserverCalls cfg a.webserver w.nextId := by
      intro id c
      rw [← mem_webEffects_reload, hweb]
    rw [← count_webEffects_reload, hweb]
    simp only [key]
    cases hw : a.webserver <;> cases hwc : wantsWebserver cfg <;>
      simp [hw, hwc] at hs <;> subst hs <;> simp [webserverCalls, hwc]
  · intro hnone id c
    rw [hws] at hnone
    rw [← mem_webEffects_reload, hweb]
    cases hw : a.webserver <;> cases hwc : wantsWebserver cfg <;>
      simp [hw, hwc] at hnone <;> simp [webserverCalls, hwc]
  · intro c₀ hP
    refine listenerLive_extend w w' c₀ _ _ htr ?_ hP
    rw [hweb, listenerLive_webserverCalls, hws]
    cases a.webserver <;> cases wantsWebserver cfg <;> simp
  · intro evs t hP hrun
    exact runLoop_invariant env
      (fun a w => listenerLive w.trace none = some (a.webserver.map (·.id)))
      (fun a w ev t hP h => loopTurn_listenerLive env none a w ev t hP h) evs a w t hP hrun


theorem doReload_listener_witness :
    ∃ a' w',
      doReload Env.allOk Configuration.plain (AgentInstance.zero (R := Nat)) World.zero
        = .ok (a', w') ∧
      a'.webserver = some { id := 0 } ∧
      webEffects (w'.since World.zero) =
        [.start .webserver 0, .webserverReload 0 Configuration.plain] ∧
      listenerLive w'.trace none = some (some 0) := by
  refine ⟨_, _, rfl, rfl, ?_, ?_⟩
  · exact (doReload_listener Env.allOk Configuration.plain (AgentInstance.zero (R := Nat)) _
      World.zero _ rfl).2.1
  · exact (doReload_listener Env.allOk Configuration.plain (AgentInstance.zero (R := Nat)) _
      World.zero _ rfl).2.2.2.2.2.2.1 none rfl

/-- C6 (failing input): start the supervisor, reload with one exporter configured, then close
the shutdown signal (or cancel the context). The loop exits through `stop`; the log handler,
the listener, the scheduler are shut down and their handles are nil, but the exporter handler
(object 3) receives no `Shutdown` and its handle is still non-nil. In general `stop` never
touches the exporter handler. -/
theorem stop_leaves_exporter_handler :
    (∃ t, runLoop Env.allOk (Start (AgentInstance.zero (R := Nat)) World.zero).1
        (Start (AgentInstance.zero (R := Nat)) World.zero).2
        [.reload (.ok Configuration.withExporter), .shutdownClosed] = .ok t ∧
      t.exited = true ∧
      t.a.logHandler = none ∧ t.a.webserver = none ∧ t.a.checkRunner = none ∧
      t.a.prometheusCheckHandler = some { id := 3, Configuration := ["node_exporter"] } ∧
      Effect.start .prometheusCheckHandler 3 ∈ t.w.trace ∧
      shutdownCount t.w.trace .prometheusCheckHandler 3 = 0 ∧
      shutdownCount t.w.trace .logHandler 0 = 1 ∧
      shutdownCount t.w.trace .webserver 1 = 1 ∧
      shutdownCount t.w.trace .checkRunner 2 = 1) ∧
    (∃ t, runLoop Env.allOk (Start (AgentInstance.zero (R := Nat)) World.zero).1
        (Start (AgentInstance.zero (R := Nat)) World.zero).2
        [.reload (.ok Configuration.withExporter), .ctxDone] = .ok t ∧
      t.exited = true ∧
      t.a.prometheusCheckHandler = some { id := 3, Configuration := ["node_exporter"] } ∧
      shutdownCount t.w.trace .prometheusCheckHandler 3 = 0) ∧
    (∀ (a : AgentInstance Nat) (w : World),
      (stop a w).1.prometheusCheckHandler = a.prometheusCheckHandler ∧
      ∀ id, shutdownCount ((stop a w).2.since w) .prometheusCheckHandler id = 0) := by
  refine ⟨⟨_, rfl, rfl, rfl, rfl, rfl, rfl, by decide, by decide, by decide, by decide,
    by decide⟩, ⟨_, rfl, rfl, rfl, by decide⟩, ?_⟩
  intro a w
  rw [stop_eq]
  refine ⟨rfl, ?_⟩
  intro id
  cases a.logHandler <;> cases a.webserver <;> cases a.customCheckHandler <;>
    cases a.checkRunner <;> cases a.pushClient <;>
    simp [World.since, shutdownCount, shutdownOf]

/-! ## The result mappings along a run -/

/-- What one turn does to the two result mappings: they stay allocated, and only an upsert
changes them. -/
theorem loopTurn_maps {R : Type} (env : Env) (a : AgentInstance R) (w : World) (ev : Event R)
    (t : Turn R) (h : loopTurn env a w ev = .ok t) :
    (a.customCheckResults.isSome = true → t.a.customCheckResults.isSome = true) ∧
    (a.prometheusExporterResults.isSome = true →
      t.a.prometheusExporterResults.isSome = true) ∧
    (ev.isUpsert = false →
      t.a.customCheckResults = a.customCheckResults ∧
      t.a.prometheusExporterResults = a.prometheusExporterResults) := by
  cases ev with
  | ctxDone =>
    simp only [loopTurn] at h
    cases h
    rw [stop_eq]
    exact ⟨id, id, fun _ => ⟨rfl, rfl⟩⟩
  | shutdownClosed =>
    simp only [loopTurn] at h
    cases h
    rw [stop_eq]
    exact ⟨id, id, fun _ => ⟨rfl, rfl⟩⟩
  | reload loaded =>
    cases loaded with
    | error e => simp [loopTurn] at h
    | ok cfg =>
      obtain ⟨hd, -, -⟩ := loopTurn_reload_ok env a w cfg t h
      obtain ⟨hcc, hpe, -⟩ := doReload_ok_spec env cfg a t.a w t.w hd
      rw [hcc, hpe]
      exact ⟨id, id, fun _ => ⟨rfl, rfl⟩⟩
  | checkResult res order =>
    simp only [loopTurn] at h
    cases h
    exact ⟨id, id, fun _ => ⟨rfl, rfl⟩⟩
  | customCheckResult n r =>
    simp only [loopTurn] at h
    cases hm : a.customCheckResults with
    | none => simp [hm] at h
    | some m =>
      simp only [hm] at h
      cases h
      exact ⟨fun _ => rfl, id, fun hu => by simp [Event.isUpsert] at hu⟩
  | prometheusExporterResult n r =>
    simp only [loopTurn] at h
    cases hm : a.prometheusExporterResults with
    | none => simp [hm] at h
    | some m =>
      simp only [hm] at h
      cases h
      exact ⟨id, fun _ => rfl, fun hu => by simp [Event.isUpsert] at hu⟩

/-- Both result mappings are allocated in every state the loop reaches from `Start`. -/
theorem runLoop_maps_allocated {R : Type} (env : Env) (a₀ : AgentInstance R) (w₀ : World)
    (evs : List (Event R)) (t : Turn R)
    (h : runLoop env (Start a₀ w₀).1 (Start a₀ w₀).2 evs = .ok t) :
    ∃ cm pm, t.a.customCheckResults = some cm ∧ t.a.prometheusExporterResults = some pm := by
  have hinv := runLoop_invariant env
    (fun a _ => a.customCheckResults.isSome = true ∧ a.prometheusExporterResults.isSome = true)
    (fun a w ev t hP ht =>
      ⟨(loopTurn_maps env a w ev t ht).1 hP.1, (loopTurn_maps env a w ev t ht).2.1 hP.2⟩)
    evs (Start a₀ w₀).1 (Start a₀ w₀).2 t ⟨rfl, rfl⟩ h
  obtain ⟨h1, h2⟩ := hinv
  cases hc : t.a.customCheckResults with
  | none => simp [hc] at h1
  | some cm =>
    cases hp : t.a.prometheusExporterResults with
    | none => simp [hp] at h2
    | some pm => exact ⟨cm, pm, rfl, rfl⟩

/-- Only external cancellation and the closed shutdown signal make the loop return. -/
theorem loopTurn_exited {R : Type} (env : Env) (a : AgentInstance R) (w : World) (ev : Event R)
    (t : Turn R) (h : loopTurn env a w ev = .ok t) (hx : t.exited = true) :
    ev = .ctxDone ∨ ev = .shutdownClosed := by
  cases ev with
  | ctxDone => exact Or.inl rfl
  | shutdownClosed => exact Or.inr rfl
  | reload loaded =>
    cases loaded with
    | error e => simp [loopTurn] at h
    | ok cfg =>
      obtain ⟨-, hf, -⟩ := loopTurn_reload_ok env a w cfg t h
      rw [hf] at hx
      cases hx
  | checkResult res order =>
    simp only [loopTurn] at h
    cases h
    cases hx
  | customCheckResult n r =>
    simp only [loopTurn] at h
    cases hm : a.customCheckResults with
    | none => simp [hm] at h
    | some m =>
      simp only [hm] at h
      cases h
      cases hx
  | prometheusExporterResult n r =>
    simp only [loopTurn] at h
    cases hm : a.prometheusExporterResults with
    | none => simp [hm] at h
    | some m =>
      simp only [hm] at h
      cases h
      cases hx

/-- A run over events without upserts, followed by one more event: either the loop had already
returned on a cancellation or shutdown among these events, or the last event was handled in a
state with the mappings of the start. -/
theorem runLoop_snoc {R : Type} (env : Env) (last : Event R) :
    ∀ (evs : List (Event R)) (a : AgentInstance R) (w : World) (t : Turn R),
      (∀ ev ∈ evs, ev.isUpsert = false) →
      runLoop env a w (evs ++ [last]) = .ok t →
      (t.exited = true ∧ ∃ ev ∈ evs, ev = Event.ctxDone ∨ ev = Event.shutdownClosed) ∨
      ∃ a' w', a'.customCheckResults = a.customCheckResults ∧
        a'.prometheusExporterResults = a.prometheusExporterResults ∧
        loopTurn env a' w' last = .ok t := by
  intro evs
  induction evs with
  | nil =>
    intro a w t _ h
    exact Or.inr ⟨a, w, rfl, rfl, runLoop_singleton env a w last t h⟩
  | cons ev evs ih =>
    intro a w t hno h
    cases hcs : evs ++ [last] with
    | nil => simp at hcs
    | cons ev' evs' =>
      simp only [List.cons_append, hcs] at h
      rw [runLoop_cons_cons] at h
      cases hl : loopTurn env a w ev with
      | error e => simp [hl] at h
      | ok t' =>
        simp only [hl] at h
        by_cases hx : t'.exited = true
        · simp only [hx, if_true] at h
          cases h
          exact Or.inl ⟨hx, ev, List.mem_cons_self _ _, loopTurn_exited env a w ev _ hl hx⟩
        · simp only [hx] at h
          rw [← hcs] at h
          obtain ⟨hcc, hpe⟩ := (loopTurn_maps env a w ev t' hl).2.2
            (hno ev (List.mem_cons_self _ _))
          rcases ih t'.a t'.w t (fun e he => hno e (List.mem_cons_of_mem _ he)) h with
            ⟨hex, e, he, hterm⟩ | ⟨a', w', h1, h2, h3⟩
          · exact Or.inl ⟨hex, e, List.mem_cons_of_mem _ he, hterm⟩
          · exact Or.inr ⟨a', w', h1.trans hcc, h2.trans hpe, h3⟩

/-- C2 (counterexample): in the state `Start` leaves, merging the empty scheduler result does
not give "prometheus_exporters" the string "[]"; the value is the empty list of names. -/
theorem start_merge_exporters_is_not_marker :
    ¬ (mapGet (processCheckResult RangeOrder.insertion
        (Start (AgentInstance.zero (R := Nat)) World.zero).1 []).1
        "prometheus_exporters" = some (Value.string "[]")) ∧
    mapGet (processCheckResult RangeOrder.insertion
        (Start (AgentInstance.zero (R := Nat)) World.zero).1 []).1
        "prometheus_exporters" = some (Value.strings []) := by
  decide

/-- C2 (amended): in a supervisor initialised by `Start` that has received no custom-check
result and no exporter result (whatever reloads and scheduler results it has handled), merging
any scheduler result yields a snapshot whose "customchecks" value is the empty object and whose
"prometheus_exporters" value is the empty list of names; this is not the string "[]", which the
merge writes when the exporter mapping is nil. (The only other outcome is that the loop has
returned, on a cancellation or a closed shutdown signal, before the scheduler result arrives;
then nothing is merged.) -/
theorem start_merge_empty {R : Type} (env : Env) (a₀ : AgentInstance R) (w₀ : World)
    (evs : List (Event R)) (hno : ∀ ev ∈ evs, ev.isUpsert = false)
    (res : List (String × Value R)) (order : RangeOrder) (t : Turn R)
    (h : runLoop env (Start a₀ w₀).1 (Start a₀ w₀).2 (evs ++ [.checkResult res order]) = .ok t) :
    (t.exited = true ∧ ∃ ev ∈ evs, ev = Event.ctxDone ∨ ev = Event.shutdownClosed) ∨
    ∃ merged, t.snapshot = some merged ∧
      mapGet merged "customchecks" = some (Value.object []) ∧
      mapGet merged "prometheus_exporters" = some (Value.strings []) ∧
      (Value.strings [] : Value R) ≠ Value.string "[]" ∧
      ∀ b : AgentInstance R, b.prometheusExporterResults = none →
        mapGet (processCheckResult order b res).1 "prometheus_exporters"
          = some (Value.string "[]") := by
  rcases runLoop_snoc env (.checkResult res order) evs _ _ t hno h with
    hex | ⟨a', w', hcc, hpe, hturn⟩
  · exact Or.inl hex
  · right
    have hv : order.visit [] = [] := (order.perm []).eq_nil
    have hne : "customchecks" ≠ "prometheus_exporters" := by decide
    have hcc' : a'.customCheckResults = some [] := by rw [hcc]; rfl
    have hpe' : a'.prometheusExporterResults = some [] := by rw [hpe]; rfl
    simp only [loopTurn] at hturn
    cases hturn
    refine ⟨_, rfl, ?_, ?_, ?_, ?_⟩
    · simp [processCheckResult, hcc', hpe', mapGet_mapSet_self, mapGet_mapSet_of_ne _ hne]
    · simp [processCheckResult, hcc', hpe', mapGet_mapSet_self, mapKeys, hv]
    · intro hval
      cases hval
    · intro b hb
      simp [processCheckResult, hb, mapGet_mapSet_self]

theorem start_merge_empty_witness :
    (∀ ev ∈ ([.reload (.ok Configuration.plain), .checkResult [] RangeOrder.insertion,
        .reload (.ok Configuration.plain)] : List (Event Nat)), ev.isUpsert = false) ∧
    ∃ t, runLoop Env.allOk (Start (AgentInstance.zero (R := Nat)) World.zero).1
        (Start (AgentInstance.zero (R := Nat)) World.zero).2
        ([.reload (.ok Configuration.plain), .checkResult [] RangeOrder.insertion,
          .reload (.ok Configuration.plain)] ++ [.checkResult [] RangeOrder.reversed]) = .ok t ∧
      t.exited = false ∧
      ∃ merged, t.snapshot = some merged ∧
        mapGet merged "customchecks" = some (Value.object []) ∧
        mapGet merged "prometheus_exporters" = some (Value.strings []) := by
  have hno : ∀ ev ∈ ([.reload (.ok Configuration.plain), .checkResult [] RangeOrder.insertion,
      .reload (.ok Configuration.plain)] : List (Event Nat)), ev.isUpsert = false := by
    intro ev hev
    simp only [List.mem_cons, List.mem_singleton, List.not_mem_nil, or_false] at hev
    rcases hev with rfl | rfl | rfl <;> rfl
  refine ⟨hno, _, rfl, rfl, ?_⟩
  rcases start_merge_empty Env.allOk AgentInstance.zero World.zero _ hno [] RangeOrder.reversed
    _ rfl with ⟨hex, -⟩ | ⟨merged, hs, h1, h2, -⟩
  · cases hex
  · exact ⟨merged, hs, h1, h2⟩

/-- C3: in every state the event loop reaches from `Start` both result mappings are allocated,
and from such a state, for every custom-check result (n1, r1) and every exporter result
(n2, r2), handling the two upserts in either order and then a scheduler result (with any order
of the range) leaves the same two mappings and produces a snapshot in which "customchecks"
maps n1 to r1 and the "prometheus_exporters" name list, a rearrangement of the exporter keys,
contains n2; each upsert changes the entry of its own name only, and a mapping grows by one
entry exactly when the name is new. -/
theorem upserts_then_merge {R : Type} (env : Env) (a₀ : AgentInstance R) (w₀ : World)
    (evs : List (Event R)) (t₀ : Turn R)
    (hrun : runLoop env (Start a₀ w₀).1 (Start a₀ w₀).2 evs = .ok t₀)
    (n1 : String) (r1 : R) (n2 r2 : String) (res : List (String × Value R))
    (o₁ o₂ : RangeOrder) :
    ∃ cm pm cm' pm' t₁ t₂ m₁ m₂ names₁ names₂,
      t₀.a.customCheckResults = some cm ∧ t₀.a.prometheusExporterResults = some pm ∧
      runLoop env t₀.a t₀.w
        [.customCheckResult n1 r1, .prometheusExporterResult n2 r2, .checkResult res o₁]
        = .ok t₁ ∧
      runLoop env t₀.a t₀.w
        [.prometheusExporterResult n2 r2, .customCheckResult n1 r1, .checkResult res o₂]
        = .ok t₂ ∧
      t₁.snapshot = some m₁ ∧ t₂.snapshot = some m₂ ∧
      t₁.a.customCheckResults = some cm' ∧ t₂.a.customCheckResults = some cm' ∧
      t₁.a.prometheusExporterResults = some pm' ∧ t₂.a.prometheusExporterResults = some pm' ∧
      mapGet m₁ "customchecks" = some (Value.object cm') ∧
      mapGet m₂ "customchecks" = some (Value.object cm') ∧
      mapGet cm' n1 = some r1 ∧
      mapGet m₁ "prometheus_exporters" = some (Value.strings names₁) ∧
      mapGet m₂ "prometheus_exporters" = some (Value.strings names₂) ∧
      n2 ∈ names₁ ∧ n2 ∈ names₂ ∧
      names₁.Perm (mapKeys pm') ∧ names₂.Perm (mapKeys pm') ∧
      mapGet pm' n2 = some r2 ∧
      (∀ k, k ≠ n1 → mapGet cm' k = mapGet cm k) ∧
      (∀ k, k ≠ n2 → mapGet pm' k = mapGet pm k) ∧
      (∀ k, k ∈ mapKeys cm' ↔ k = n1 ∨ k ∈ mapKeys cm) ∧
      (∀ k, k ∈ mapKeys pm' ↔ k = n2 ∨ k ∈ mapKeys pm) ∧
      cm'.length = (if n1 ∈ mapKeys cm then cm.length else cm.length + 1) ∧
      pm'.length = (if n2 ∈ mapKeys pm then pm.length else pm.length + 1) := by
  obtain ⟨cm, pm, hc, hp⟩ := runLoop_maps_allocated env a₀ w₀ evs t₀ hrun
  have hne : "customchecks" ≠ "prometheus_exporters" := by decide
  let a' : AgentInstance R :=
    { t₀.a with customCheckResults := some (mapSet cm n1 r1),
                prometheusExporterResults := some (mapSet pm n2 r2) }
  have hlen : ∀ {V : Type} (m : List (String × V)) (k : String) (v : V),
      (mapSet m k v).length = (if k ∈ mapKeys m then m.length else m.length + 1) := by
    intro V m k v
    have h1 : (mapSet m k v).length = (mapKeys (mapSet m k v)).length := by simp [mapKeys]
    have h2 : m.length = (mapKeys m).length := by simp [mapKeys]
    split_ifs with hm
    · rw [h1, mapKeys_mapSet_of_mem m k v hm, ← h2]
    · rw [h1, mapKeys_mapSet_of_not_mem m k v hm, List.length_append, ← h2]
      rfl
  have hmem : n2 ∈ mapKeys (mapSet pm n2 r2) := (mem_mapKeys_mapSet pm n2 n2 r2).2 (Or.inl rfl)
  have hperm : ∀ o : RangeOrder,
      (mapKeys (o.visit (mapSet pm n2 r2))).Perm (mapKeys (mapSet pm n2 r2)) :=
    fun o => (o.perm _).map Prod.fst
  refine ⟨cm, pm, mapSet cm n1 r1, mapSet pm n2 r2,
    { a := a', w := t₀.w, exited := false, snapshot := some (processCheckResult o₁ a' res).1 },
    { a := a', w := t₀.w, exited := false, snapshot := some (processCheckResult o₂ a' res).1 },
    (processCheckResult o₁ a' res).1, (processCheckResult o₂ a' res).1,
    mapKeys (o₁.visit (mapSet pm n2 r2)), mapKeys (o₂.visit (mapSet pm n2 r2)),
    hc, hp, ?_, ?_, rfl, rfl, rfl, rfl, rfl, rfl, ?_, ?_, mapGet_mapSet_self cm n1 r1, ?_, ?_,
    (hperm o₁).mem_iff.2 hmem, (hperm o₂).mem_iff.2 hmem, hperm o₁, hperm o₂,
    mapGet_mapSet_self pm n2 r2, fun k hk => mapGet_mapSet_of_ne cm hk r1,
    fun k hk => mapGet_mapSet_of_ne pm hk r2, fun k => mem_mapKeys_mapSet cm n1 k r1,
    fun k => mem_mapKeys_mapSet pm n2 k r2, hlen cm n1 r1, hlen pm n2 r2⟩
  · simp [runLoop, loopTurn, hc, hp, a']
  · simp [runLoop, loopTurn, hc, hp, a']
  · simp [processCheckResult, mapGet_mapSet_self, mapGet_mapSet_of_ne _ hne, a']
  · simp [processCheckResult, mapGet_mapSet_self, mapGet_mapSet_of_ne _ hne, a']
  · simp [processCheckResult, mapGet_mapSet_self, a']
  · simp [processCheckResult, mapGet_mapSet_self, a']

theorem upserts_then_merge_witness :
    ∃ t₀, runLoop Env.allOk (Start (AgentInstance.zero (R := Nat)) World.zero).1
        (Start (AgentInstance.zero (R := Nat)) World.zero).2
        [.reload (.ok Configuration.plain), .prometheusExporterResult "apache" "up 1"]
        = .ok t₀ ∧
      ∃ t₁ t₂ m₁ m₂ names₁ names₂,
        runLoop Env.allOk t₀.a t₀.w
          [.customCheckResult "check1" 7, .prometheusExporterResult "node" "up 1",
            .checkResult [] RangeOrder.insertion] = .ok t₁ ∧
        runLoop Env.allOk t₀.a t₀.w
          [.prometheusExporterResult "node" "up 1", .customCheckResult "check1" 7,
            .checkResult [] RangeOrder.reversed] = .ok t₂ ∧
        t₁.snapshot = some m₁ ∧ t₂.snapshot = some m₂ ∧
        mapGet m₁ "prometheus_exporters" = some (Value.strings names₁) ∧
        mapGet m₂ "prometheus_exporters" = some (Value.strings names₂) ∧
        "node" ∈ names₁ ∧ "node" ∈ names₂ := by
  refine ⟨_, rfl, ?_⟩
  obtain ⟨cm, pm, cm', pm', t₁, t₂, m₁, m₂, names₁, names₂, -, -, h1, h2, hs1, hs2, -, -, -, -,
      -, -, -, hn1, hn2, hm1, hm2, -⟩ :=
    upserts_then_merge Env.allOk (AgentInstance.zero (R := Nat)) World.zero
      [.reload (.ok Configuration.plain), .prometheusExporterResult "apache" "up 1"] _ rfl
      "check1" 7 "node" "up 1" [] RangeOrder.insertion RangeOrder.reversed
  exact ⟨t₁, t₂, m₁, m₂, names₁, names₂, h1, h2, hs1, hs2, hn1, hn2, hm1, hm2⟩

end agentrt

namespace webserver

open agentrt (Configuration)

/-! ## The TLS decision -/

theorem isAutosslEnabled_iff (sys : Sys) (cfg : Configuration) :
    isAutosslEnabled sys cfg = true ↔
      (cfg.AutoSslEnabled = true ∧ sys.FileNotExists cfg.AutoSslCrtFile = false ∧
        sys.FileNotExists cfg.AutoSslKeyFile = false ∧
        sys.FileNotExists cfg.AutoSslCaFile = false) := by
  unfold isAutosslEnabled
  cases cfg.AutoSslEnabled <;> cases sys.FileNotExists cfg.AutoSslCrtFile <;>
    cases sys.FileNotExists cfg.AutoSslKeyFile <;>
    cases sys.FileNotExists cfg.AutoSslCaFile <;> simp

theorem tlsBranch_iff (sys : Sys) (cfg : Configuration) :
    (isAutosslEnabled sys cfg || (cfg.KeyFile != "" && cfg.CertificateFile != "")) = true ↔
      TlsWanted sys cfg := by
  unfold TlsWanted
  rw [Bool.or_eq_true, isAutosslEnabled_iff]
  simp [and_comm]

theorem tlsSetup_of_not_wanted (sys : Sys) (cfg : Configuration) (h : ¬ TlsWanted sys cfg) :
    tlsSetup sys cfg = .ok none := by
  rw [← tlsBranch_iff] at h
  unfold tlsSetup
  rw [if_neg h]

/-- What `tlsSetup` returns when it returns a TLS configuration. -/
theorem tlsSetup_some (sys : Sys) (cfg : Configuration) (t : TlsConfig)
    (h : tlsSetup sys cfg = .ok (some t)) :
    TlsWanted sys cfg ∧
    t.MinVersion = (tlsConfigForLevel cfg.TlsSecurityLevel).MinVersion ∧
    t.CurvePreferences = (tlsConfigForLevel cfg.TlsSecurityLevel).CurvePreferences ∧
    t.CipherSuites = (tlsConfigForLevel cfg.TlsSecurityLevel).CipherSuites ∧
    (t.ClientAuth = .RequireAndVerifyClientCert ↔ cfg.AutoSslEnabled = true) := by
  by_cases hw : TlsWanted sys cfg
  · refine ⟨hw, ?_⟩
    have hb := (tlsBranch_iff sys cfg).2 hw
    unfold tlsSetup at h
    rw [if_pos hb] at h
    cases hA : cfg.AutoSslEnabled <;> simp only [hA, if_true, if_false, Bool.false_eq_true] at h
    · cases hc : sys.ReadFile cfg.CertificateFile <;> simp only [hc] at h
      · cases h
      · cases hk : sys.ReadFile cfg.KeyFile <;> simp only [hk] at h
        · cases h
        · simp only [bne_self_eq_false, Bool.false_eq_true, if_false] at h
          split at h
          · cases h
          · simp only [Except.ok.injEq, Option.some.injEq] at h
            subst h
            simp [tlsConfigForLevel]
            split_ifs <;> simp
    · cases hc : sys.ReadFile cfg.AutoSslCrtFile <;> simp only [hc] at h
      · cases h
      · cases hk : sys.ReadFile cfg.AutoSslKeyFile <;> simp only [hk] at h
        · cases h
        · by_cases hca : cfg.AutoSslCaFile = ""
          · simp only [hca, bne_self_eq_false, Bool.false_eq_true, if_false] at h
            split at h
            · cases h
            · simp only [Except.ok.injEq, Option.some.injEq] at h
              subst h
              simp
          · have hne : (cfg.AutoSslCaFile != "") = true := by simpa using hca
            simp only [hne, if_true] at h
            cases hp : sys.CertPoolFromFiles cfg.AutoSslCaFile <;> simp only [hp] at h
            · cases h
            · split at h
              · cases h
              · simp only [Except.ok.injEq, Option.some.injEq] at h
                subst h
                simp
  · rw [tlsSetup_of_not_wanted sys cfg hw] at h
    cases h


/-! ## The socket handoff -/

theorem close_eq (s : Server) (w : World) :
    close s w =
      ({ server := none, handler := none }, { w with trace := w.trace ++ closeEffects s }) := by
  obtain ⟨srv, h⟩ := s
  obtain ⟨n, p, tr⟩ := w
  cases srv <;> cases h <;> simp [close, closeEffects, World.emit]

theorem waitClosed_trace (sys : Sys) (address : String) :
    ∀ (n : Nat) (w : World), (waitClosed sys address n w).nextId = w.nextId ∧
      ∃ es, (waitClosed sys address n w).trace = w.trace ++ es ∧ ∀ e ∈ es, e.isProbe = true := by
  intro n
  induction n with
  | zero => intro w; exact ⟨rfl, [], by simp [waitClosed], by simp⟩
  | succ n ih =>
    intro w
    simp only [waitClosed, testPortOpen]
    cases hd : sys.dial w.probes address
    · exact ⟨rfl, [.testPortOpen address false], by simp, by simp [Effect.isProbe]⟩
    · obtain ⟨hn, es, hes, hall⟩ := ih
        (World.emit { w with probes := w.probes + 1,
                             trace := w.trace ++ [.testPortOpen address true] } .sleep)
      refine ⟨by simpa [World.emit] using hn, .testPortOpen address true :: .sleep :: es, ?_, ?_⟩
      · simpa [World.emit] using hes
      · intro e he
        simp only [List.mem_cons] at he
        rcases he with rfl | rfl | he
        · rfl
        · rfl
        · exact hall e he

theorem waitOpen_trace (sys : Sys) (address : String) :
    ∀ (n : Nat) (w : World), (waitOpen sys address n w).nextId = w.nextId ∧
      ∃ es, (waitOpen sys address n w).trace = w.trace ++ es ∧ ∀ e ∈ es, e.isProbe = true := by
  intro n
  induction n with
  | zero => intro w; exact ⟨rfl, [], by simp [waitOpen], by simp⟩
  | succ n ih =>
    intro w
    simp only [waitOpen, testPortOpen]
    cases hd : sys.dial w.probes address
    · obtain ⟨hn, es, hes, hall⟩ := ih
        (World.emit { w with probes := w.probes + 1,
                             trace := w.trace ++ [.testPortOpen address false] } .sleep)
      refine ⟨by simpa [World.emit] using hn, .testPortOpen address false :: .sleep :: es, ?_, ?_⟩
      · simpa [World.emit] using hes
      · intro e he
        simp only [List.mem_cons] at he
        rcases he with rfl | rfl | he
        · rfl
        · rfl
        · exact hall e he
    · exact ⟨rfl, [.testPortOpen address true], by simp, by simp [Effect.isProbe]⟩

/-- The result of `doReloadBody` when the TLS set-up succeeds and the accept loop runs. -/
theorem doReloadBody_eq (sys : Sys) (cfg : Configuration) (s : Server) (w : World)
    (tls : Option TlsConfig) (h : tlsSetup sys cfg = .ok tls)
    (hl : sys.listenServe (w.nextId + 1) (serverAddr cfg) = none) :
    doReloadBody sys cfg s w =
      .ok ({ server := some (newServerOf cfg tls w.nextId),
             handler := some { id := w.nextId, Configuration := cfg } },
           waitOpen sys (newServerOf cfg tls w.nextId).Addr 30
              (World.emit
                (waitClosed sys (newServerOf cfg tls w.nextId).Addr 30
                  { nextId := w.nextId + 2, probes := w.probes,
                    trace := w.trace ++ ([.handlerStart w.nextId] ++ closeEffects s) })
                (.listenServe (w.nextId + 1)))) := by
  obtain ⟨n, p, tr⟩ := w
  simp only [serverAddr] at hl
  simp [doReloadBody, h, hl, close_eq, World.fresh, World.emit, newServerOf]

/-- The new `*http.Server` that `doReload` builds. -/
theorem doReload_eq (sys : Sys) (cfg : Configuration) (s : Server) (w : World)
    (tls : Option TlsConfig) (h : tlsSetup sys cfg = .ok tls)
    (hl : sys.listenServe (w.nextId + 1) (serverAddr cfg) = none) :
    doReload sys cfg s w =
      .ok ({ server := some (newServerOf cfg tls w.nextId),
             handler := some { id := w.nextId, Configuration := cfg } },
           World.emit
            (waitOpen sys (newServerOf cfg tls w.nextId).Addr 30
              (World.emit
                (waitClosed sys (newServerOf cfg tls w.nextId).Addr 30
                  { nextId := w.nextId + 2, probes := w.probes,
                    trace := w.trace ++ ([.handlerStart w.nextId] ++ closeEffects s) })
                (.listenServe (w.nextId + 1))))
            .reloadDone) := by
  simp only [doReload, doReloadBody_eq sys cfg s w tls h hl]

/-- A reload returns only when the TLS set-up succeeded and the accept loop did not fail. -/
theorem doReloadBody_ok (sys : Sys) (cfg : Configuration) (s : Server) (w : World)
    (x : Server × World) (h : doReloadBody sys cfg s w = .ok x) :
    ∃ tls, tlsSetup sys cfg = .ok tls ∧
      sys.listenServe (w.nextId + 1) (serverAddr cfg) = none := by
  obtain ⟨n, p, tr⟩ := w
  cases ht : tlsSetup sys cfg with
  | error e => simp [doReloadBody, ht, World.fresh] at h
  | ok tls =>
    cases hl : sys.listenServe (n + 1) (serverAddr cfg) with
    | none => exact ⟨tls, rfl, rfl⟩
    | some e =>
      simp only [serverAddr] at hl
      simp [doReloadBody, ht, hl, World.fresh, World.emit, close_eq] at h

theorem doReload_tlsSetup_ok (sys : Sys) (cfg : Configuration) (s : Server) (w : World)
    (x : Server × World) (h : doReload sys cfg s w = .ok x) :
    ∃ tls, tlsSetup sys cfg = .ok tls ∧
      sys.listenServe (w.nextId + 1) (serverAddr cfg) = none := by
  simp only [doReload] at h
  cases hb : doReloadBody sys cfg s w with
  | error e => simp [hb] at h
  | ok y => exact doReloadBody_ok sys cfg s w y hb

/-- C8: the TLS parameters chosen for a security level: the minimum version is TLS 1.3 exactly
for "modern" and TLS 1.2 for every other string; the curve preferences are X25519, P-256, P-384
for "intermediate" and "modern" and empty otherwise; cipher suites are set only for
"intermediate", to the six ECDHE-ECDSA/RSA suites with AES-128-GCM, AES-256-GCM and
ChaCha20-Poly1305; every other string gets TLS 1.2 and nothing else. The TLS configuration
`doReload` gives the new server carries exactly these parameters. -/
theorem tlsConfigForLevel_policy (level : String) :
    ((tlsConfigForLevel level).MinVersion = .VersionTLS13 ↔ level = "modern") ∧
    ((tlsConfigForLevel level).MinVersion = .VersionTLS12 ↔ level ≠ "modern") ∧
    ((tlsConfigForLevel level).CurvePreferences =
      if level = "intermediate" ∨ level = "modern" then [.X25519, .CurveP256, .CurveP384]
      else []) ∧
    ((tlsConfigForLevel level).CipherSuites ≠ [] ↔ level = "intermediate") ∧
    ((tlsConfigForLevel "intermediate").CipherSuites =
      [.TLS_ECDHE_ECDSA_WITH_AES_128_GCM_SHA256, .TLS_ECDHE_RSA_WITH_AES_128_GCM_SHA256,
       .TLS_ECDHE_ECDSA_WITH_AES_256_GCM_SHA384, .TLS_ECDHE_RSA_WITH_AES_256_GCM_SHA384,
       .TLS_ECDHE_ECDSA_WITH_CHACHA20_POLY1305, .TLS_ECDHE_RSA_WITH_CHACHA20_POLY1305]) ∧
    (level ≠ "intermediate" → level ≠ "modern" →
      tlsConfigForLevel level = { MinVersion := .VersionTLS12 }) ∧
    (∀ (sys : Sys) (cfg : Configuration) (t : TlsConfig), cfg.TlsSecurityLevel = level →
      tlsSetup sys cfg = .ok (some t) →
      t.MinVersion = (tlsConfigForLevel level).MinVersion ∧
      t.CurvePreferences = (tlsConfigForLevel level).CurvePreferences ∧
      t.CipherSuites = (tlsConfigForLevel level).CipherSuites) ∧
    (∀ (sys : Sys) (cfg : Configuration) (s s' : Server) (w w' : World) (srv : HttpServer)
      (t : TlsConfig), cfg.TlsSecurityLevel = level →
      doReload sys cfg s w = .ok (s', w') → s'.server = some srv → srv.TLSConfig = some t →
      t.MinVersion = (tlsConfigForLevel level).MinVersion ∧
      t.CurvePreferences = (tlsConfigForLevel level).CurvePreferences ∧
      t.CipherSuites = (tlsConfigForLevel level).CipherSuites) := by
  have hmi : "modern" ≠ "intermediate" := by decide
  have key : ∀ (sys : Sys) (cfg : Configuration) (t : TlsConfig), cfg.TlsSecurityLevel = level →
      tlsSetup sys cfg = .ok (some t) →
      t.MinVersion = (tlsConfigForLevel level).MinVersion ∧
      t.CurvePreferences = (tlsConfigForLevel level).CurvePreferences ∧
      t.CipherSuites = (tlsConfigForLevel level).CipherSuites := by
    intro sys cfg t hl ht
    obtain ⟨-, h1, h2, h3, -⟩ := tlsSetup_some sys cfg t ht
    rw [hl] at h1 h2 h3
    exact ⟨h1, h2, h3⟩
  refine ⟨?_, ?_, ?_, ?_, rfl, ?_, key, ?_⟩
  · by_cases h1 : level = "intermediate"
    · subst h1; simp [tlsConfigForLevel]
    · by_cases h2 : level = "modern" <;> simp [tlsConfigForLevel, h1, h2]
  · by_cases h1 : level = "intermediate"
    · subst h1; simp [tlsConfigForLevel]
    · by_cases h2 : level = "modern" <;> simp [tlsConfigForLevel, h1, h2]
  · by_cases h1 : level = "intermediate"
    · subst h1; simp [tlsConfigForLevel]
    · by_cases h2 : level = "modern" <;> simp [tlsConfigForLevel, h1, h2]
  · by_cases h1 : level = "intermediate"
    · subst h1; simp [tlsConfigForLevel]
    · by_cases h2 : level = "modern" <;> simp [tlsConfigForLevel, h1, h2]
  · intro h1 h2
    simp [tlsConfigForLevel, h1, h2]
  · intro sys cfg s s' w w' srv t hl h hsrv htls
    obtain ⟨tls, ht, hls⟩ := doReload_tlsSetup_ok sys cfg s w _ h
    rw [doReload_eq sys cfg s w tls ht hls] at h
    simp only [Except.ok.injEq, Prod.mk.injEq] at h
    rw [← h.1] at hsrv
    simp only [Option.some.injEq] at hsrv
    rw [← hsrv] at htls
    simp only [newServerOf] at htls
    rw [htls] at ht
    exact key sys cfg t hl ht

theorem tlsConfigForLevel_policy_witness :
    ∃ s' w' srv t,
      doReload Sys.explicitOnly { explicitTls with TlsSecurityLevel := "modern" }
        Server.zero World.zero = .ok (s', w') ∧
      s'.server = some srv ∧ srv.TLSConfig = some t ∧
      t.MinVersion = .VersionTLS13 ∧
      t.CurvePreferences = [.X25519, .CurveP256, .CurveP384] ∧
      t.CipherSuites = [] := by
  refine ⟨_, _, _, _, rfl, rfl, rfl, ?_⟩
  exact (tlsConfigForLevel_policy "modern").2.2.2.2.2.2.2 Sys.explicitOnly
    { explicitTls with TlsSecurityLevel := "modern" } Server.zero _ World.zero _ _ _
    rfl rfl rfl rfl

/-- C9 (failing input): auto-provisioning is enabled, the three provisioned files are absent,
and an explicit certificate and key are configured and readable. `isAutosslEnabled` answers
false, yet `doReload` enters the TLS branch through the explicit files and then reads the
provisioned certificate path: the reload is fatal. With auto-provisioning switched off the same
files give a TLS server without client verification. When only the CA file is missing, the
provisioned certificate is used and client verification is required without any CA pool. When
the explicit files are not both configured, the reload is plain HTTP as the claim says. -/
theorem missing_autossl_files_still_read :
    (halfProvisioned.AutoSslEnabled = true ∧
      Sys.explicitOnly.FileNotExists halfProvisioned.AutoSslCrtFile = true ∧
      Sys.explicitOnly.FileNotExists halfProvisioned.AutoSslKeyFile = true ∧
      Sys.explicitOnly.FileNotExists halfProvisioned.AutoSslCaFile = true ∧
      isAutosslEnabled Sys.explicitOnly halfProvisioned = false ∧
      Sys.explicitOnly.ReadFile halfProvisioned.CertificateFile = some "CERT" ∧
      Sys.explicitOnly.ReadFile halfProvisioned.KeyFile = some "KEY" ∧
      tlsSetup Sys.explicitOnly halfProvisioned
        = .error "Webserver: Could not read server certificate" ∧
      doReload Sys.explicitOnly halfProvisioned Server.zero World.zero
        = .error "Webserver: Could not read server certificate") ∧
    (tlsSetup Sys.explicitOnly { halfProvisioned with AutoSslEnabled := false }
        = .ok (some { MinVersion := .VersionTLS12, ClientAuth := .NoClientCert,
                      Certificates := ["CERT\nKEY"] })) ∧
    (Sys.withoutCa.FileNotExists autosslWithoutCa.AutoSslCaFile = true ∧
      isAutosslEnabled Sys.withoutCa autosslWithoutCa = false ∧
      tlsSetup Sys.withoutCa autosslWithoutCa
        = .ok (some { MinVersion := .VersionTLS12, ClientAuth := .RequireAndVerifyClientCert,
                      ClientCAs := none, Certificates := ["AUTOCERT\nAUTOKEY"] })) ∧
    (∀ (sys : Sys) (cfg : Configuration), isAutosslEnabled sys cfg = false →
      ¬ (cfg.CertificateFile ≠ "" ∧ cfg.KeyFile ≠ "") → tlsSetup sys cfg = .ok none) := by
  refine ⟨⟨rfl, by decide, by decide, by decide, by decide, by decide, by decide, rfl, rfl⟩,
    rfl, ⟨by decide, by decide, rfl⟩, ?_⟩
  intro sys cfg ha hb
  apply tlsSetup_of_not_wanted
  rintro (h | h)
  · rw [← isAutosslEnabled_iff, ha] at h
    cases h
  · exact hb h


/-! ## Servers running along a trace -/

theorem serving_append (xs ys : List Effect) :
    ∀ cur, serving (xs ++ ys) cur = (serving xs cur).bind (serving ys) := by
  induction xs with
  | nil => intro cur; rfl
  | cons e xs ih =>
    intro cur
    cases e
    case listenServe id =>
      cases cur
      · exact ih _
      · rfl
    case serverClose id =>
      simp only [List.cons_append, serving]
      split_ifs
      · exact ih _
      · rfl
    all_goals exact ih cur

theorem serving_of_no_server_call (es : List Effect)
    (h : ∀ e ∈ es, e.isServerCall = false) : ∀ cur, serving es cur = some cur := by
  induction es with
  | nil => intro cur; rfl
  | cons e es ih =>
    intro cur
    have he := h e (List.mem_cons_self _ _)
    have ih' := ih (fun e' he' => h e' (List.mem_cons_of_mem _ he')) cur
    cases e <;> first | exact ih' | (simp [Effect.isServerCall] at he)

theorem isServerCall_of_isProbe (e : Effect) (h : e.isProbe = true) :
    e.isServerCall = false := by
  cases e <;> first | rfl | (simp [Effect.isProbe] at h)

theorem serving_closeEffects (s : Server) :
    serving (closeEffects s) (s.server.map (·.id)) = some none := by
  obtain ⟨srv, h⟩ := s
  cases srv <;> cases h <;> simp [closeEffects, serving]

/-- The effects of one reload that returns, in order. -/
theorem doReload_trace (sys : Sys) (cfg : Configuration) (s s' : Server) (w w' : World)
    (h : doReload sys cfg s w = .ok (s', w')) :
    ∃ pre post srv,
      s'.server = some srv ∧ srv.id = w.nextId + 1 ∧
      s'.handler = some { id := w.nextId, Configuration := cfg } ∧
      w'.trace = w.trace ++ ([.handlerStart w.nextId] ++ closeEffects s ++ pre ++
        [.listenServe srv.id] ++ post) ∧
      (∀ e ∈ pre, e.isProbe = true) ∧
      (∀ e ∈ post, e.isProbe = true ∨ e = .reloadDone) := by
  obtain ⟨tls, ht, hl⟩ := doReload_tlsSetup_ok sys cfg s w _ h
  rw [doReload_eq sys cfg s w tls ht hl] at h
  simp only [Except.ok.injEq, Prod.mk.injEq] at h
  obtain ⟨hs, hw⟩ := h
  obtain ⟨-, pre, hpre, hpreAll⟩ := waitClosed_trace sys (newServerOf cfg tls w.nextId).Addr 30
    { nextId := w.nextId + 2, probes := w.probes,
      trace := w.trace ++ ([.handlerStart w.nextId] ++ closeEffects s) }
  obtain ⟨-, post, hpost, hpostAll⟩ := waitOpen_trace sys (newServerOf cfg tls w.nextId).Addr 30
    (World.emit
      (waitClosed sys (newServerOf cfg tls w.nextId).Addr 30
        { nextId := w.nextId + 2, probes := w.probes,
          trace := w.trace ++ ([.handlerStart w.nextId] ++ closeEffects s) })
      (.listenServe (w.nextId + 1)))
  refine ⟨pre, post ++ [.reloadDone], newServerOf cfg tls w.nextId, by rw [← hs], rfl,
    by rw [← hs], ?_, hpreAll, ?_⟩
  · rw [← hw]
    simp only [World.emit] at hpost ⊢
    rw [hpost, hpre]
    simp [newServerOf]
  · intro e he
    simp only [List.mem_append, List.mem_singleton] at he
    rcases he with he | he
    · exact Or.inl (hpostAll e he)
    · exact Or.inr he

theorem doReload_serving (sys : Sys) (cfg : Configuration) (s s' : Server) (w w' : World)
    (h : doReload sys cfg s w = .ok (s', w')) (c₀ : Option Nat)
    (hP : serving w.trace c₀ = some (s.server.map (·.id))) :
    serving w'.trace c₀ = some (s'.server.map (·.id)) := by
  obtain ⟨pre, post, srv, hsrv, -, -, htr, hpre, hpost⟩ := doReload_trace sys cfg s s' w w' h
  have h1 : serving pre none = some none :=
    serving_of_no_server_call pre (fun e he => isServerCall_of_isProbe e (hpre e he)) none
  have h2 : serving post (some srv.id) = some (some srv.id) := by
    apply serving_of_no_server_call
    intro e he
    rcases hpost e he with hp | rfl
    · exact isServerCall_of_isProbe e hp
    · rfl
  rw [htr, hsrv]
  simp [serving_append, hP, serving, serving_closeEffects, h1, h2]

theorem doReloads_serving (sys : Sys) :
    ∀ (cfgs : List Configuration) (s s' : Server) (w w' : World),
      serving w.trace none = some (s.server.map (·.id)) →
      doReloads sys s w cfgs = .ok (s', w') →
      serving w'.trace none = some (s'.server.map (·.id)) := by
  intro cfgs
  induction cfgs with
  | nil =>
    intro s s' w w' hP h
    simp only [doReloads, Except.ok.injEq, Prod.mk.injEq] at h
    rw [← h.1, ← h.2]
    exact hP
  | cons cfg cfgs ih =>
    intro s s' w w' hP h
    simp only [doReloads] at h
    cases hd : doReload sys cfg s w with
    | error e => simp [hd] at h
    | ok x =>
      obtain ⟨s₁, w₁⟩ := x
      simp only [hd] at h
      exact ih s₁ s' w₁ w' (doReload_serving sys cfg s s₁ w w₁ hd none hP) h

/-- C10: in the effects of a listener reload that returns, the new handler is started, then the
previous server (if any) is closed, then the previous handler (if any) is told to stop, then
only probes and pauses follow until the accept loop of the new server is started; after it come
only probes, pauses and the completion signal. So along every run of reloads an accept loop is
only ever started while no server started earlier is still unclosed (`serving` replays the
trace), and the server recorded as current is the only one running. -/
theorem doReload_handoff (sys : Sys) (cfg : Configuration) (s s' : Server) (w w' : World)
    (h : doReload sys cfg s w = .ok (s', w')) :
    (∃ pre post srv,
      s'.server = some srv ∧ srv.id = w.nextId + 1 ∧
      w'.trace = w.trace ++ ([.handlerStart w.nextId] ++ closeEffects s ++ pre ++
        [.listenServe srv.id] ++ post) ∧
      (∀ e ∈ pre, e.isProbe = true) ∧
      (∀ e ∈ post, e.isProbe = true ∨ e = .reloadDone)) ∧
    closeEffects s =
      (s.server.map fun x => Effect.serverClose x.id).toList ++
      (s.handler.map fun x => Effect.handlerShutdown x.id).toList ∧
    (∀ c₀, serving w.trace c₀ = some (s.server.map (·.id)) →
      serving w'.trace c₀ = some (s'.server.map (·.id))) ∧
    (∀ (cfgs : List Configuration) (s'' : Server) (w'' : World),
      serving w.trace none = some (s.server.map (·.id)) →
      doReloads sys s w cfgs = .ok (s'', w'') →
      serving w''.trace none = some (s''.server.map (·.id))) := by
  refine ⟨?_, ?_, ?_, ?_⟩
  · obtain ⟨pre, post, srv, h1, h2, -, h3, h4, h5⟩ := doReload_trace sys cfg s s' w w' h
    exact ⟨pre, post, srv, h1, h2, h3, h4, h5⟩
  · obtain ⟨srv, hd⟩ := s
    cases srv <;> cases hd <;> simp [closeEffects]
  · intro c₀ hP
    exact doReload_serving sys cfg s s' w w' h c₀ hP
  · intro cfgs s'' w'' hP hrun
    exact doReloads_serving sys cfgs s s'' w w'' hP hrun

theorem doReload_handoff_witness :
    ∃ s'' w'',
      doReloads Sys.explicitOnly Server.zero World.zero
        [agentrt.Configuration.plain, explicitTls] = .ok (s'', w'') ∧
      serving w''.trace none = some (s''.server.map (·.id)) ∧
      s''.server.map (·.id) = some 3 :=
  ⟨_, _, rfl,
    (doReload_handoff Sys.explicitOnly agentrt.Configuration.plain Server.zero _ World.zero _
      rfl).2.2.2 [agentrt.Configuration.plain, explicitTls] _ _ rfl rfl,
    rfl⟩


/-! ## The probe loops -/

theorem probeCount_append (xs ys : List Effect) :
    probeCount (xs ++ ys) = probeCount xs + probeCount ys := by
  simp [probeCount, List.countP_append]

theorem probeCount_probeRounds (address : String) (r : Bool) (k : Nat) :
    probeCount (probeRounds address r k) = k := by
  induction k with
  | zero => rfl
  | succ k ih =>
    simp only [probeCount] at ih
    simp [probeRounds, probeCount, List.countP_cons, ih]

theorem probedAddresses_append (xs ys : List Effect) :
    probedAddresses (xs ++ ys) = probedAddresses xs ++ probedAddresses ys := by
  induction xs with
  | nil => rfl
  | cons e xs ih => cases e <;> simp [probedAddresses, ih]

theorem probedAddresses_probeRounds (address : String) (r : Bool) (k : Nat) :
    probedAddresses (probeRounds address r k) = List.replicate k address := by
  induction k with
  | zero => rfl
  | succ k ih => simp [probeRounds, probedAddresses, ih, List.replicate_succ]

theorem probedAddresses_closeEffects (s : Server) : probedAddresses (closeEffects s) = [] := by
  obtain ⟨srv, h⟩ := s
  cases srv <;> cases h <;> simp [closeEffects, probedAddresses]

/-- The loop that waits for an address to stop answering: `k` dials answered, each followed by a
pause, and then either a dial that is refused (with `k < n`) or the end of the budget
(`k = n`). The outcomes are those of the dials numbered from `w.probes` on. -/
theorem waitClosed_shape (sys : Sys) (address : String) :
    ∀ (n : Nat) (w : World), ∃ k, k ≤ n ∧
      (waitClosed sys address n w).nextId = w.nextId ∧
      (∀ i, i < k → sys.dial (w.probes + i) address = true) ∧
      ((k < n ∧ sys.dial (w.probes + k) address = false ∧
          (waitClosed sys address n w).probes = w.probes + k + 1 ∧
          (waitClosed sys address n w).trace =
            w.trace ++ (probeRounds address true k ++ [.testPortOpen address false])) ∨
       (k = n ∧ (waitClosed sys address n w).probes = w.probes + n ∧
          (waitClosed sys address n w).trace = w.trace ++ probeRounds address true n)) := by
  intro n
  induction n with
  | zero =>
    intro w
    exact ⟨0, le_refl _, rfl, by intro i hi; omega, Or.inr ⟨rfl, rfl, by simp [waitClosed, probeRounds]⟩⟩
  | succ n ih =>
    intro w
    simp only [waitClosed, testPortOpen]
    cases hd : sys.dial w.probes address
    · refine ⟨0, Nat.zero_le _, rfl, by intro i hi; omega, Or.inl ⟨Nat.succ_pos _, by simpa using hd, rfl, ?_⟩⟩
      simp [probeRounds]
    · obtain ⟨k, hk, hn, hall, hend⟩ := ih
        (World.emit { w with probes := w.probes + 1,
                             trace := w.trace ++ [.testPortOpen address true] } .sleep)
      simp only [World.emit] at hn hall hend
      refine ⟨k + 1, Nat.succ_le_succ hk, by simpa [World.emit] using hn, ?_, ?_⟩
      · intro i hi
        cases i with
        | zero => simpa using hd
        | succ j =>
          have := hall j (by omega)
          rw [← this]
          congr 1
          omega
      · rcases hend with ⟨hlt, hdk, hp, htr⟩ | ⟨heq, hp, htr⟩
        · refine Or.inl ⟨by omega, ?_, ?_, ?_⟩
          · rw [← hdk]
            congr 1
            omega
          · simp only [Bool.not_true, Bool.false_eq_true, if_false, World.emit]
            rw [hp]
            omega
          · simp only [Bool.not_true, Bool.false_eq_true, if_false, World.emit]
            rw [htr]
            simp [probeRounds]
        · refine Or.inr ⟨by omega, ?_, ?_⟩
          · simp only [Bool.not_true, Bool.false_eq_true, if_false, World.emit]
            rw [hp]
            omega
          · simp only [Bool.not_true, Bool.false_eq_true, if_false, World.emit]
            rw [htr]
            simp [probeRounds]

/-- The loop that waits for an address to answer: `k` dials refused, each followed by a pause,
and then either a dial that is answered (with `k < n`) or the end of the budget (`k = n`). -/
theorem waitOpen_shape (sys : Sys) (address : String) :
    ∀ (n : Nat) (w : World), ∃ k, k ≤ n ∧
      (waitOpen sys address n w).nextId = w.nextId ∧
      (∀ i, i < k → sys.dial (w.probes + i) address = false) ∧
      ((k < n ∧ sys.dial (w.probes + k) address = true ∧
          (waitOpen sys address n w).trace =
            w.trace ++ (probeRounds address false k ++ [.testPortOpen address true])) ∨
       (k = n ∧
          (waitOpen sys address n w).trace = w.trace ++ probeRounds address false n)) := by
  intro n
  induction n with
  | zero =>
    intro w
    exact ⟨0, le_refl _, rfl, by intro i hi; omega, Or.inr ⟨rfl, by simp [waitOpen, probeRounds]⟩⟩
  | succ n ih =>
    intro w
    simp only [waitOpen, testPortOpen]
    cases hd : sys.dial w.probes address
    · obtain ⟨k, hk, hn, hall, hend⟩ := ih
        (World.emit { w with probes := w.probes + 1,
                             trace := w.trace ++ [.testPortOpen address false] } .sleep)
      simp only [World.emit] at hn hall hend
      refine ⟨k + 1, Nat.succ_le_succ hk, by simpa [World.emit] using hn, ?_, ?_⟩
      · intro i hi
        cases i with
        | zero => simpa using hd
        | succ j =>
          have := hall j (by omega)
          rw [← this]
          congr 1
          omega
      · rcases hend with ⟨hlt, hdk, htr⟩ | ⟨heq, htr⟩
        · refine Or.inl ⟨by omega, ?_, ?_⟩
          · rw [← hdk]
            congr 1
            omega
          · simp only [Bool.false_eq_true, if_false, World.emit]
            rw [htr]
            simp [probeRounds]
        · refine Or.inr ⟨by omega, ?_⟩
          simp only [Bool.false_eq_true, if_false, World.emit]
          rw [htr]
          simp [probeRounds]
    · refine ⟨0, Nat.zero_le _, rfl, by intro i hi; omega, Or.inl ⟨Nat.succ_pos _, by simpa using hd, ?_⟩⟩
      simp [probeRounds]


theorem probeCount_occupancy (address : String) (j : Nat) (occupancy : List Effect)
    (h : (j < 30 ∧ occupancy = probeRounds address true j ++ [.testPortOpen address false]) ∨
         (j = 30 ∧ occupancy = probeRounds address true 30)) :
    probeCount occupancy ≤ 30 ∧ ∀ a ∈ probedAddresses occupancy, a = address := by
  rcases h with ⟨hj, rfl⟩ | ⟨-, rfl⟩
  · refine ⟨?_, ?_⟩
    · rw [probeCount_append, probeCount_probeRounds]
      simp [probeCount]
      omega
    · intro a ha
      rw [probedAddresses_append, probedAddresses_probeRounds] at ha
      simp [probedAddresses] at ha
      rcases ha with ⟨-, rfl⟩ | rfl <;> rfl
  · refine ⟨by rw [probeCount_probeRounds], ?_⟩
    intro a ha
    rw [probedAddresses_probeRounds] at ha
    exact (List.eq_of_mem_replicate ha)

theorem probeCount_readiness (address : String) (k : Nat) (readiness : List Effect)
    (h : (k < 30 ∧ readiness = probeRounds address false k ++ [.testPortOpen address true]) ∨
         (k = 30 ∧ readiness = probeRounds address false 30)) :
    probeCount readiness ≤ 30 ∧ ∀ a ∈ probedAddresses readiness, a = address := by
  rcases h with ⟨hj, rfl⟩ | ⟨-, rfl⟩
  · refine ⟨?_, ?_⟩
    · rw [probeCount_append, probeCount_probeRounds]
      simp [probeCount]
      omega
    · intro a ha
      rw [probedAddresses_append, probedAddresses_probeRounds] at ha
      simp [probedAddresses] at ha
      rcases ha with ⟨-, rfl⟩ | rfl <;> rfl
  · refine ⟨by rw [probeCount_probeRounds], ?_⟩
    intro a ha
    rw [probedAddresses_probeRounds] at ha
    exact (List.eq_of_mem_replicate ha)

theorem reloadDone_not_mem_probeRounds (address : String) (r : Bool) (k : Nat) :
    Effect.reloadDone ∉ probeRounds address r k := by
  induction k with
  | zero => simp [probeRounds]
  | succ k ih => simp [probeRounds, ih]

theorem reloadDone_not_mem_closeEffects (s : Server) : Effect.reloadDone ∉ closeEffects s := by
  obtain ⟨srv, h⟩ := s
  cases srv <;> cases h <;> simp [closeEffects]

/-- The effects of one reload whose TLS set-up succeeds and whose accept loop runs, with both
probe loops spelled out. -/
theorem doReload_probes (sys : Sys) (cfg : Configuration) (s : Server) (w : World)
    (tls : Option TlsConfig) (h : tlsSetup sys cfg = .ok tls)
    (hl : sys.listenServe (w.nextId + 1) (serverAddr cfg) = none) :
    ∃ w' j k occupancy readiness,
      doReload sys cfg s w =
        .ok ({ server := some (newServerOf cfg tls w.nextId),
               handler := some { id := w.nextId, Configuration := cfg } }, w') ∧
      w'.trace = w.trace ++ ([.handlerStart w.nextId] ++ closeEffects s ++ occupancy ++
        [.listenServe (w.nextId + 1)] ++ readiness ++ [.reloadDone]) ∧
      j ≤ 30 ∧ (∀ i, i < j → sys.dial (w.probes + i) (serverAddr cfg) = true) ∧
      ((j < 30 ∧ sys.dial (w.probes + j) (serverAddr cfg) = false ∧
          occupancy = probeRounds (serverAddr cfg) true j ++
            [.testPortOpen (serverAddr cfg) false]) ∨
       (j = 30 ∧ occupancy = probeRounds (serverAddr cfg) true 30)) ∧
      k ≤ 30 ∧
      (∀ i, i < k → sys.dial (w.probes + probeCount occupancy + i) (serverAddr cfg) = false) ∧
      ((k < 30 ∧ sys.dial (w.probes + probeCount occupancy + k) (serverAddr cfg) = true ∧
          readiness = probeRounds (serverAddr cfg) false k ++
            [.testPortOpen (serverAddr cfg) true]) ∨
       (k = 30 ∧ readiness = probeRounds (serverAddr cfg) false 30)) := by
  have haddr : (newServerOf cfg tls w.nextId).Addr = serverAddr cfg := rfl
  rw [doReload_eq sys cfg s w tls h hl, haddr]
  obtain ⟨j, hj, -, hjall, hjend⟩ := waitClosed_shape sys (serverAddr cfg) 30
    { nextId := w.nextId + 2, probes := w.probes,
      trace := w.trace ++ ([.handlerStart w.nextId] ++ closeEffects s) }
  obtain ⟨k, hk, -, hkall, hkend⟩ := waitOpen_shape sys (serverAddr cfg) 30
    (World.emit
      (waitClosed sys (serverAddr cfg) 30
        { nextId := w.nextId + 2, probes := w.probes,
          trace := w.trace ++ ([.handlerStart w.nextId] ++ closeEffects s) })
      (.listenServe (w.nextId + 1)))
  simp only [World.emit] at hkall hkend
  simp only at hjall hjend hkall
  rcases hjend with ⟨hjlt, hjd, hjp, hjtr⟩ | ⟨hjeq, hjp, hjtr⟩
  · have hc : probeCount (probeRounds (serverAddr cfg) true j ++
        [Effect.testPortOpen (serverAddr cfg) false]) = j + 1 := by
      rw [probeCount_append, probeCount_probeRounds]
      simp [probeCount]
    rw [hjp] at hkall
    rcases hkend with ⟨hklt, hkd, hktr⟩ | ⟨hkeq, hktr⟩
    · rw [hjp] at hkd
      refine ⟨_, j, k, _, _, rfl, ?_, hj, hjall, Or.inl ⟨hjlt, hjd, rfl⟩, hk, ?_,
        Or.inl ⟨hklt, ?_, rfl⟩⟩
      · simp only [World.emit]
        rw [hktr, hjtr]
        simp
      · intro i hi
        rw [hc, ← Nat.add_assoc]
        exact hkall i hi
      · rw [hc, ← Nat.add_assoc]
        exact hkd
    · refine ⟨_, j, k, _, _, rfl, ?_, hj, hjall, Or.inl ⟨hjlt, hjd, rfl⟩, hk, ?_,
        Or.inr ⟨hkeq, rfl⟩⟩
      · simp only [World.emit]
        rw [hktr, hjtr]
        simp
      · intro i hi
        rw [hc, ← Nat.add_assoc]
        exact hkall i hi
  · have hc : probeCount (probeRounds (serverAddr cfg) true 30) = 30 :=
      probeCount_probeRounds _ _ _
    rw [hjp] at hkall
    rcases hkend with ⟨hklt, hkd, hktr⟩ | ⟨hkeq, hktr⟩
    · rw [hjp] at hkd
      refine ⟨_, j, k, _, _, rfl, ?_, hj, hjall, Or.inr ⟨hjeq, rfl⟩, hk, ?_,
        Or.inl ⟨hklt, ?_, rfl⟩⟩
      · simp only [World.emit]
        rw [hktr, hjtr]
        simp
      · intro i hi
        rw [hc]
        exact hkall i hi
      · rw [hc]
        exact hkd
    · refine ⟨_, j, k, _, _, rfl, ?_, hj, hjall, Or.inr ⟨hjeq, rfl⟩, hk, ?_,
        Or.inr ⟨hkeq, rfl⟩⟩
      · simp only [World.emit]
        rw [hktr, hjtr]
        simp
      · intro i hi
        rw [hc]
        exact hkall i hi


theorem probeCount_closeEffects (s : Server) : probeCount (closeEffects s) = 0 := by
  obtain ⟨srv, h⟩ := s
  cases srv <;> cases h <;> simp [closeEffects, probeCount]

/-- C11 (failing input): a first reload records a server on 127.0.0.1:3333; a second reload moves
the listener to port 4444 while the old address keeps answering every dial. The second reload
closes the old server (object 1) and then dials only 127.0.0.1:4444, 31 times in all: the old
address is not probed once, because `close` has set `s.server` to nil before the loop guarded
by `s.server != nil` is reached. In general every dial of a reload goes to the new address, and
at most 30 of them come before the accept loop is started. -/
theorem old_address_is_never_probed :
    (∃ s₁ w₁ s₂ w₂,
      doReload Sys.oldPortBusy agentrt.Configuration.plain Server.zero World.zero
        = .ok (s₁, w₁) ∧
      s₁.server.map (·.Addr) = some "127.0.0.1:3333" ∧
      s₁.server.map (·.id) = some 1 ∧
      doReload Sys.oldPortBusy movedPort s₁ w₁ = .ok (s₂, w₂) ∧
      s₂.server.map (·.Addr) = some "127.0.0.1:4444" ∧
      Effect.serverClose 1 ∈ w₂.trace.drop w₁.trace.length ∧
      (∀ n, Sys.oldPortBusy.dial n "127.0.0.1:3333" = true) ∧
      probedAddresses (w₂.trace.drop w₁.trace.length) = List.replicate 31 "127.0.0.1:4444" ∧
      "127.0.0.1:3333" ∉ probedAddresses (w₂.trace.drop w₁.trace.length)) ∧
    (∀ (sys : Sys) (cfg : Configuration) (s s' : Server) (w w' : World),
      doReload sys cfg s w = .ok (s', w') →
      ∃ before after,
        w'.trace.drop w.trace.length = before ++ [.listenServe (w.nextId + 1)] ++ after ∧
        probeCount before ≤ 30 ∧
        (∀ a ∈ probedAddresses before, a = serverAddr cfg) ∧
        (∀ a ∈ probedAddresses after, a = serverAddr cfg)) := by
  refine ⟨⟨_, _, _, _, rfl, rfl, rfl, rfl, rfl, by decide, fun _ => rfl, rfl, by decide⟩, ?_⟩
  intro sys cfg s s' w w' h
  obtain ⟨tls, ht, hl⟩ := doReload_tlsSetup_ok sys cfg s w _ h
  obtain ⟨w₂, j, k, occupancy, readiness, hok, htr, -, -, hocc, -, -, hready⟩ :=
    doReload_probes sys cfg s w tls ht hl
  rw [h] at hok
  simp only [Except.ok.injEq, Prod.mk.injEq] at hok
  obtain ⟨-, rfl⟩ := hok
  have ho := probeCount_occupancy (serverAddr cfg) j occupancy
    (hocc.imp (fun x => ⟨x.1, x.2.2⟩) id)
  have hr := probeCount_readiness (serverAddr cfg) k readiness
    (hready.imp (fun x => ⟨x.1, x.2.2⟩) id)
  refine ⟨[.handlerStart w.nextId] ++ closeEffects s ++ occupancy, readiness ++ [.reloadDone],
    ?_, ?_, ?_, ?_⟩
  · rw [htr]
    simp
  · simp only [probeCount_append, probeCount_closeEffects]
    simpa [probeCount] using ho.1
  · intro a ha
    simp only [probedAddresses_append, probedAddresses_closeEffects] at ha
    simp only [probedAddresses, List.nil_append, List.append_nil] at ha
    exact ho.2 a ha
  · intro a ha
    simp only [probedAddresses_append] at ha
    simp only [probedAddresses, List.append_nil] at ha
    exact hr.2 a ha

/-! ## The handshake of `Reload` -/

/-- The four stages of a call of `Reload` whose `doReloadBody` returns `(sb, wb)`: the caller at
its send, the request taken, the loop at its last send, the caller returned. -/
theorem Reload_stages (sys : Sys) (cfg : Configuration) (s sb : Server) (w wb : World)
    (hb : doReloadBody sys cfg s w = .ok (sb, wb)) :
    Reload sys cfg s w 0 =
      .ok { caller := .sending cfg, loop := .selecting, s := s, w := w } ∧
    Reload sys cfg s w 1 =
      .ok { caller := .waiting, loop := .reloading cfg, s := s, w := w } ∧
    Reload sys cfg s w 2 =
      .ok { caller := .waiting, loop := .signalling, s := sb, w := wb } ∧
    ∀ n, Reload sys cfg s w (n + 3) =
      .ok { caller := .returned, loop := .selecting, s := sb, w := wb.emit .reloadDone } := by
  refine ⟨rfl, rfl, ?_, ?_⟩
  · simp [Reload, Handshake.run, Handshake.step, hb]
  · intro n
    have hstuck : ∀ k, Handshake.run sys k
        { caller := .returned, loop := .selecting, s := sb, w := wb.emit .reloadDone } =
        .ok { caller := .returned, loop := .selecting, s := sb, w := wb.emit .reloadDone } := by
      intro k
      cases k <;> simp [Handshake.run, Handshake.step]
    simp [Reload, Handshake.run, Handshake.step, hb, hstuck]

/-- C12 (counterexample): the TLS step succeeds and no dial is ever answered, so the readiness
budget would run out, but the listener may not bind its address: the unit of work of the accept
loop calls `log.Fatal`, the reload ends without the completion signal, and `Reload` does not
return. -/
theorem accept_loop_failure_is_fatal :
    tlsSetup Sys.bindDenied agentrt.Configuration.plain = .ok none ∧
    (∀ n address, Sys.bindDenied.dial n address = false) ∧
    doReload Sys.bindDenied agentrt.Configuration.plain Server.zero World.zero
      = .error "Webserver: listen tcp 127.0.0.1:3333: bind: permission denied" ∧
    Reload Sys.bindDenied agentrt.Configuration.plain Server.zero World.zero 3
      = .error "Webserver: listen tcp 127.0.0.1:3333: bind: permission denied" :=
  ⟨rfl, fun _ _ => rfl, rfl, rfl⟩

/-- C12 (amended): whatever the outcomes of the dials, a reload whose TLS set-up succeeds and
whose accept loop does not fail returns; after the accept loop of the new server is started it
dials the new address at most 30 times, each refused dial followed by a pause, and stops at the
first dial that is answered; then it sends the completion signal, once, and nowhere else in the
reload. So the signal comes only after an answered dial or after 30 refused ones, and the new
server is recorded as current in both cases. A call of `Reload` returns after three steps of
the handshake, and whenever it has returned the world already holds these dials and the
signal. -/
theorem doReload_readiness (sys : Sys) (cfg : Configuration) (s : Server) (w : World)
    (tls : Option TlsConfig) (h : tlsSetup sys cfg = .ok tls)
    (hl : sys.listenServe (w.nextId + 1) (serverAddr cfg) = none) :
    ∃ s' w' before readiness k,
      doReload sys cfg s w = .ok (s', w') ∧
      s'.server = some (newServerOf cfg tls w.nextId) ∧
      w'.trace = w.trace ++ (before ++ [.listenServe (w.nextId + 1)] ++ readiness ++
        [.reloadDone]) ∧
      Effect.reloadDone ∉ before ∧ Effect.reloadDone ∉ readiness ∧
      (w'.trace.drop w.trace.length).count .reloadDone = 1 ∧
      probeCount readiness ≤ 30 ∧
      (∀ a ∈ probedAddresses readiness, a = serverAddr cfg) ∧
      k ≤ 30 ∧
      (∀ i, i < k → sys.dial (w.probes + probeCount before + i) (serverAddr cfg) = false) ∧
      ((k < 30 ∧ sys.dial (w.probes + probeCount before + k) (serverAddr cfg) = true ∧
          readiness = probeRounds (serverAddr cfg) false k ++
            [.testPortOpen (serverAddr cfg) true]) ∨
       (k = 30 ∧ readiness = probeRounds (serverAddr cfg) false 30)) ∧
      (∀ n, 3 ≤ n → Reload sys cfg s w n =
        .ok { caller := .returned, loop := .selecting, s := s', w := w' }) ∧
      (∀ n hs, Reload sys cfg s w n = .ok hs → hs.caller = .returned →
        hs.s = s' ∧ hs.w = w') ∧
      (∀ n hs, Reload sys cfg s w n = .ok hs → hs.caller ≠ .returned →
        Effect.reloadDone ∉ hs.w.trace.drop w.trace.length) := by
  obtain ⟨w', j, k, occupancy, readiness, hok, htr, -, -, hocc, hk, hkall, hready⟩ :=
    doReload_probes sys cfg s w tls h hl
  have hr := probeCount_readiness (serverAddr cfg) k readiness
    (hready.imp (fun x => ⟨x.1, x.2.2⟩) id)
  have hcount : probeCount ([.handlerStart w.nextId] ++ closeEffects s ++ occupancy) =
      probeCount occupancy := by
    simp only [probeCount_append, probeCount_closeEffects]
    simp [probeCount]
  have hnb : Effect.reloadDone ∉ [Effect.handlerStart w.nextId] ++ closeEffects s ++ occupancy := by
    have hc := reloadDone_not_mem_closeEffects s
    rcases hocc with ⟨-, -, rfl⟩ | ⟨-, rfl⟩ <;>
      simp [hc, reloadDone_not_mem_probeRounds]
  have hnr : Effect.reloadDone ∉ readiness := by
    rcases hready with ⟨-, -, rfl⟩ | ⟨-, rfl⟩ <;> simp [reloadDone_not_mem_probeRounds]
  -- the body of the reload, before the signal
  have hbody := doReloadBody_eq sys cfg s w tls h hl
  have hw' : w' = World.emit
      (waitOpen sys (newServerOf cfg tls w.nextId).Addr 30
        (World.emit
          (waitClosed sys (newServerOf cfg tls w.nextId).Addr 30
            { nextId := w.nextId + 2, probes := w.probes,
              trace := w.trace ++ ([.handlerStart w.nextId] ++ closeEffects s) })
          (.listenServe (w.nextId + 1)))) .reloadDone := by
    have := doReload_eq sys cfg s w tls h hl
    rw [hok] at this
    simp only [Except.ok.injEq, Prod.mk.injEq, true_and] at this
    exact this
  obtain ⟨h0, h1, h2, h3⟩ := Reload_stages sys cfg s _ w _ hbody
  have hbtr : ∀ wb : World, wb.emit .reloadDone = w' →
      Effect.reloadDone ∉ wb.trace.drop w.trace.length := by
    intro wb hwb
    have : wb.trace ++ [Effect.reloadDone] = w'.trace := by rw [← hwb]; rfl
    rw [htr] at this
    have hpre : wb.trace = w.trace ++ ([.handlerStart w.nextId] ++ closeEffects s ++ occupancy ++
        [.listenServe (w.nextId + 1)] ++ readiness) := by
      have h' : wb.trace ++ [Effect.reloadDone] =
          (w.trace ++ ([.handlerStart w.nextId] ++ closeEffects s ++ occupancy ++
            [.listenServe (w.nextId + 1)] ++ readiness)) ++ [Effect.reloadDone] := by
        rw [this]
        simp
      exact List.append_cancel_right h'
    rw [hpre, List.drop_left]
    intro hmem
    rcases List.mem_append.1 hmem with hm | hm
    · rcases List.mem_append.1 hm with hm | hm
      · exact hnb hm
      · simp at hm
    · exact hnr hm
  refine ⟨_, w', [.handlerStart w.nextId] ++ closeEffects s ++ occupancy, readiness, k,
    hok, rfl, htr, hnb, hnr, ?_, hr.1, hr.2, hk, ?_, ?_, ?_, ?_, ?_⟩
  · rw [htr, List.drop_left]
    simp only [List.count_append, List.count_eq_zero_of_not_mem hnb,
      List.count_eq_zero_of_not_mem hnr]
    simp
  · rw [hcount]
    exact hkall
  · rw [hcount]
    exact hready
  · intro n hn
    obtain ⟨m, rfl⟩ : ∃ m, n = m + 3 := ⟨n - 3, by omega⟩
    rw [h3 m, hw']
  · intro n hs hrun hret
    match n, hrun with
    | 0, hrun => rw [h0] at hrun; cases hrun; cases hret
    | 1, hrun => rw [h1] at hrun; cases hrun; cases hret
    | 2, hrun => rw [h2] at hrun; cases hrun; cases hret
    | m + 3, hrun =>
      rw [h3 m] at hrun
      cases hrun
      exact ⟨rfl, hw'.symm⟩
  · intro n hs hrun hret
    match n, hrun with
    | 0, hrun =>
      rw [h0] at hrun; cases hrun
      simp
    | 1, hrun =>
      rw [h1] at hrun; cases hrun
      simp
    | 2, hrun =>
      rw [h2] at hrun; cases hrun
      exact hbtr _ hw'.symm
    | m + 3, hrun =>
      rw [h3 m] at hrun
      cases hrun
      exact absurd rfl hret

theorem doReload_readiness_witness :
    tlsSetup Sys.explicitOnly agentrt.Configuration.plain = .ok none ∧
    Sys.explicitOnly.listenServe (World.zero.nextId + 1)
      (serverAddr agentrt.Configuration.plain) = none ∧
    ∃ s' w' readiness,
      doReload Sys.explicitOnly agentrt.Configuration.plain Server.zero World.zero
        = .ok (s', w') ∧
      Reload Sys.explicitOnly agentrt.Configuration.plain Server.zero World.zero 3
        = .ok { caller := .returned, loop := .selecting, s := s', w := w' } ∧
      s'.server = some (newServerOf agentrt.Configuration.plain none World.zero.nextId) ∧
      readiness = probeRounds (serverAddr agentrt.Configuration.plain) false 30 ∧
      w'.trace.drop 3 = readiness ++ [.reloadDone] ∧
      (w'.trace.drop World.zero.trace.length).count .reloadDone = 1 := by
  obtain ⟨s', w', before, readiness, k, hok, hsrv, -, -, -, hcount, -, -, -, -, -, hret, -, -⟩ :=
    doReload_readiness Sys.explicitOnly agentrt.Configuration.plain Server.zero World.zero
      none rfl rfl
  have hok' : doReload Sys.explicitOnly agentrt.Configuration.plain Server.zero World.zero
      = .ok (s', w') := hok
  have hval : doReload Sys.explicitOnly agentrt.Configuration.plain Server.zero World.zero
      = .ok (_, _) := rfl
  rw [hval] at hok'
  simp only [Except.ok.injEq, Prod.mk.injEq] at hok'
  obtain ⟨hs, hw⟩ := hok'
  refine ⟨rfl, rfl, s', w', _, hok, hret 3 (le_refl _), hsrv, rfl, ?_, hcount⟩
  rw [← hw]
  rfl

end webserver
